/-
Verification development for the VSCode KTX2 viewer.

This file gives a shallow embedding, over lists of byte values, of the KTX2
container parser (media/read.js and the revision embedded alongside
src/extension.ts), the Vulkan-format mapping tables (media/read.js and
media/transcoder.js), and the GPU upload layout planner (padRows /
padBlockRowsBC in media/main.js), together with theorems settling the
specification claims about them.

Modelling conventions:
- byte buffers (JS ArrayBuffer / Uint8Array) are `List Nat`; every byte
  written by the builders is reduced mod 256;
- a thrown JS RangeError from an out-of-bounds DataView / typed-array
  construction or read is the error value `KTXError.rangeError`;
- the other `throw new Error(...)` sites of the parser each get their own
  `KTXError` constructor;
- `Number(dv.getBigUint64(...))` is modelled by `roundToDouble`
  (round-to-nearest-even conversion of an unsigned integer to an IEEE-754
  double, exact below 2^53);
- the JS signed 32-bit shift `pixelWidth >> i` is modelled by `jsShr`;
- the external fzstd decompressor and the Basis Universal transcoder session
  are oracles passed as explicit arguments (a `none` result models a throw);
- `console.warn` calls of the Zstd branch are collected in a warning list
  returned next to the parse result.
-/
import Mathlib

namespace KTX2

/-! ### Byte-level primitives -/

/-- Little-endian 4-byte encoding of an unsigned 32-bit value
(the layout `DataView.getUint32(off, true)` reads back). -/
def u32LE (n : Nat) : List Nat :=
  [n % 256, n / 256 % 256, n / 65536 % 256, n / 16777216 % 256]

/-- Little-endian 8-byte encoding of an unsigned 64-bit value. -/
def u64LE (n : Nat) : List Nat :=
  u32LE (n % 4294967296) ++ u32LE (n / 4294967296)

/-- `DataView.getUint32(off, true)` at the head of a buffer: reads four bytes
little-endian, `none` (a JS RangeError) if fewer than four bytes remain. -/
def readU32 : List Nat → Option Nat
  | b0 :: b1 :: b2 :: b3 :: _ => some (b0 + 256 * b1 + 65536 * b2 + 16777216 * b3)
  | _ => none

/-- `DataView.getUint32(off, true)` at absolute offset `off`. -/
def readU32At (buf : List Nat) (off : Nat) : Option Nat :=
  readU32 (buf.drop off)

/-- `DataView.getUint16(off, true)` at the head of a buffer. -/
def readU16 : List Nat → Option Nat
  | b0 :: b1 :: _ => some (b0 + 256 * b1)
  | _ => none

/-- `DataView.getUint16(off, true)` at absolute offset `off`. -/
def readU16At (buf : List Nat) (off : Nat) : Option Nat :=
  readU16 (buf.drop off)

/-- `DataView.getUint8(off)` at absolute offset `off`. -/
def readU8At (buf : List Nat) (off : Nat) : Option Nat :=
  (buf.drop off).head?

/-- `DataView.getBigUint64(off, true)` at the head of a buffer. -/
def readU64 : List Nat → Option Nat
  | b0 :: b1 :: b2 :: b3 :: b4 :: b5 :: b6 :: b7 :: _ =>
      some (b0 + 256 * b1 + 65536 * b2 + 16777216 * b3 + 4294967296 * b4 +
        1099511627776 * b5 + 281474976710656 * b6 + 72057594037927936 * b7)
  | _ => none

/-- `DataView.getBigUint64(off, true)` at absolute offset `off`. -/
def readU64At (buf : List Nat) (off : Nat) : Option Nat :=
  readU64 (buf.drop off)

/-! ### JS numeric conversions -/

/-- `Number(b)` for an unsigned 64-bit BigInt `b`: conversion to the nearest
IEEE-754 double, ties to even.  Exact for values below `2^53`; above that the
value is rounded to the nearest multiple of `2^(⌊log2 n⌋ - 52)`. -/
def roundToDouble (n : Nat) : Nat :=
  if n < 9007199254740992 then n
  else
    let ulp := 2 ^ (Nat.log2 n - 52)
    let q := n / ulp
    let r := n % ulp
    if 2 * r < ulp then q * ulp
    else if ulp < 2 * r then (q + 1) * ulp
    else if q % 2 = 0 then q * ulp else (q + 1) * ulp

/-- JS `ToInt32`: reduce mod `2^32` and reinterpret as a signed 32-bit value. -/
def toInt32 (n : Nat) : Int :=
  if n % 4294967296 < 2147483648 then ((n % 4294967296 : Nat) : Int)
  else ((n % 4294967296 : Nat) : Int) - 4294967296

/-- JS signed right shift `a >> i` on an unsigned operand `a`:
`ToInt32(a)` arithmetically shifted by `i mod 32`, which is floor division
by `2^(i % 32)`. -/
def jsShr (a i : Nat) : Int :=
  Int.fdiv (toInt32 a) (2 ^ (i % 32))

/-! ### Data model (read.js record shapes) -/

/-- The fixed 12-byte KTX2 magic identifier (read.js `KTX2_IDENTIFIER`). -/
def KTX2_IDENTIFIER : List Nat :=
  [0xAB, 0x4B, 0x54, 0x58, 0x20, 0x32, 0x30, 0xBB, 0x0D, 0x0A, 0x1A, 0x0A]

/-- The nine uint32 header fields of read.js `parseKTX2`, in file order. -/
structure KTXHeader where
  vkFormat : Nat
  typeSize : Nat
  pixelWidth : Nat
  pixelHeight : Nat
  pixelDepth : Nat
  layerCount : Nat
  faceCount : Nat
  levelCount : Nat
  supercompressionScheme : Nat
  deriving DecidableEq

/-- The index block of read.js `parseKTX2`: 4 uint32 + 2 uint64 fields. -/
structure KTXIndex where
  dfdByteOffset : Nat
  dfdByteLength : Nat
  kvdByteOffset : Nat
  kvdByteLength : Nat
  sgdByteOffset : Nat
  sgdByteLength : Nat
  deriving DecidableEq

/-- One level-index entry as built by read.js `parseKTX2`, including the
derived dimensions and the fields the supercompression branches attach. -/
structure KTXLevel where
  byteOffset : Nat
  byteLength : Nat
  uncompressedByteLength : Nat
  width : Nat
  height : Nat
  isDecompressed : Bool
  decompressedData : Option (List Nat)
  transcodedFormat : Option Nat
  deriving DecidableEq

/-- The Data Format Descriptor record of read.js `parseDFD`. -/
structure DFD where
  totalSize : Nat
  vendorId : Nat
  descriptorType : Nat
  versionNumber : Nat
  descriptorBlockSize : Nat
  colorModel : Nat
  colorPrimaries : Nat
  transferFunction : Nat
  flags : Nat
  texelBlockDimension : List Nat
  bytesPlane : List Nat
  deriving DecidableEq

/-- The value returned by read.js `parseKTX2`. KVD entries are kept as a list
of (key bytes, value bytes) pairs in record order. -/
structure ParsedKTX2 where
  header : KTXHeader
  index : KTXIndex
  levels : List KTXLevel
  dfd : Option DFD
  kvd : Option (List (List Nat × List Nat))
  deriving DecidableEq

/-- Classified throw sites of the parser.  `rangeError` stands for any JS
RangeError raised by an out-of-bounds typed-array / DataView construction or
read; the remaining constructors are the parser's own `throw new Error` sites. -/
inductive KTXError where
  | rangeError
  | invalidIdentifier
  | truncatedHeader
  | decompressFailed (level : Nat)
  | unsupportedBasisLZ
  | unsupportedZlib
  | unknownScheme (scheme : Nat)
  | transcoderInitFailed
  deriving DecidableEq

/-- The spec's `UnsupportedScheme` error class: thrown for a scheme field the
parser does not handle. -/
def KTXError.isUnsupportedScheme : KTXError → Bool
  | .unsupportedBasisLZ => true
  | .unsupportedZlib => true
  | .unknownScheme _ => true
  | _ => false

/-- One `console.warn` record of the Zstd branch: level index, actual
decompressed length, declared uncompressed length. -/
inductive ZstdWarning where
  | sizeMismatch (level actual expected : Nat)
  deriving DecidableEq

end KTX2

namespace KTX2

/-! ### Metadata block parsers (read.js parseDFD / parseKVD) -/

/-- read.js `parseDFD`: builds a `DataView(dv.buffer, baseOffset, length)`
(RangeError when the region exceeds the buffer) and reads a 28-byte fixed
layout inside it (RangeError when `length < 28`).  `none` models either
RangeError; otherwise the decoded record is returned. -/
def parseDFD (buf : List Nat) (base len : Nat) : Option DFD :=
  if base + len ≤ buf.length ∧ 28 ≤ len then
    let v := (buf.drop base).take len
    some { totalSize := v.getD 0 0 + 256 * v.getD 1 0 + 65536 * v.getD 2 0 + 16777216 * v.getD 3 0
           vendorId := v.getD 4 0 + 256 * v.getD 5 0
           descriptorType := v.getD 6 0 + 256 * v.getD 7 0
           versionNumber := v.getD 8 0 + 256 * v.getD 9 0
           descriptorBlockSize := v.getD 10 0 + 256 * v.getD 11 0
           colorModel := v.getD 12 0
           colorPrimaries := v.getD 13 0
           transferFunction := v.getD 14 0
           flags := v.getD 15 0
           texelBlockDimension := [v.getD 16 0, v.getD 17 0, v.getD 18 0, v.getD 19 0]
           bytesPlane := [v.getD 20 0, v.getD 21 0, v.getD 22 0, v.getD 23 0,
                          v.getD 24 0, v.getD 25 0, v.getD 26 0, v.getD 27 0] }
  else none

/-- Split a KVD record at its first NUL byte into key and value
(read.js: `str.indexOf('\0')`); `none` when no NUL is present, in which case
the record is skipped. -/
def splitAtNul : List Nat → Option (List Nat × List Nat)
  | [] => none
  | 0 :: rest => some ([], rest)
  | b :: rest => (splitAtNul rest).map (fun p => (b :: p.1, p.2))

/-- The `while (offset < baseOffset + length)` loop of read.js `parseKVD`:
reads a uint32 record length (RangeError = `none` when out of the whole
buffer), stops on a zero length, slices the record bytes
(`new Uint8Array(dv.buffer, offset, kvByteLength)`, RangeError when past the
buffer end), then advances by the record length plus 4-byte-alignment
padding. -/
def parseKVDLoop (buf : List Nat) (stop off : Nat) : Option (List (List Nat × List Nat)) :=
  if _h : off < stop then
    match readU32At buf off with
    | none => none
    | some kvLen =>
      if kvLen = 0 then some []
      else
        if off + 4 + kvLen ≤ buf.length then
          let bytes := ((buf.drop (off + 4)).take kvLen)
          match parseKVDLoop buf stop (off + 4 + kvLen + (4 - kvLen % 4) % 4) with
          | none => none
          | some rest =>
            match splitAtNul bytes with
            | some e => some (e :: rest)
            | none => some rest
        else none
  else some []
termination_by stop - off
decreasing_by omega

/-- read.js `parseKVD` over the region `[base, base+len)`. -/
def parseKVD (buf : List Nat) (base len : Nat) : Option (List (List Nat × List Nat)) :=
  parseKVDLoop buf (base + len) base

/-! ### Container header parser (read.js parseKTX2) -/

/-- The nine header reads of `parseKTX2` at offsets 12..44. -/
def readHeader (buf : List Nat) : Option KTXHeader :=
  match readU32At buf 12, readU32At buf 16, readU32At buf 20, readU32At buf 24,
        readU32At buf 28, readU32At buf 32, readU32At buf 36, readU32At buf 40,
        readU32At buf 44 with
  | some vk, some ts, some pw, some ph, some pd, some lc, some fc, some lv, some sc =>
      some ⟨vk, ts, pw, ph, pd, lc, fc, lv, sc⟩
  | _, _, _, _, _, _, _, _, _ => none

/-- The index reads of `parseKTX2` at offsets 48..79; the two uint64 values
go through `Number(...)` (`roundToDouble`). -/
def readIndex (buf : List Nat) : Option KTXIndex :=
  match readU32At buf 48, readU32At buf 52, readU32At buf 56, readU32At buf 60,
        readU64At buf 64, readU64At buf 72 with
  | some dfdO, some dfdL, some kvdO, some kvdL, some sgdO, some sgdL =>
      some ⟨dfdO, dfdL, kvdO, kvdL, roundToDouble sgdO, roundToDouble sgdL⟩
  | _, _, _, _, _, _ => none

/-- The level-index loop of `parseKTX2`: entry `i` is read at offset
`80 + 24*i` as three uint64 values through `Number(...)`, and the derived
dimensions are `Math.max(1, pixelWidth >> i)` (JS signed shift) and likewise
for the height. -/
def readLevelEntries (buf : List Nat) (pw ph : Nat) : Nat → Nat → Option (List KTXLevel)
  | _, 0 => some []
  | i, n + 1 =>
    match readU64At buf (80 + 24 * i), readU64At buf (80 + 24 * i + 8),
          readU64At buf (80 + 24 * i + 16) with
    | some bo, some bl, some ul =>
      match readLevelEntries buf pw ph (i + 1) n with
      | some rest =>
          some ({ byteOffset := roundToDouble bo
                  byteLength := roundToDouble bl
                  uncompressedByteLength := roundToDouble ul
                  width := (max 1 (jsShr pw i)).toNat
                  height := (max 1 (jsShr ph i)).toNat
                  isDecompressed := false
                  decompressedData := none
                  transcodedFormat := none } :: rest)
      | none => none
    | _, _, _ => none

/-- The Zstd branch of `parseKTX2`: for each level in order, slice the raw
bytes (`new Uint8Array(arrayBuffer, byteOffset, byteLength)`, RangeError when
past the buffer end), call the external decompressor `z` (a throw = `none`
becomes the fatal per-level decompress error), attach the result, and record
a `console.warn` when the decompressed length differs from the declared
uncompressed length.  The first component of the index pair is the loop
counter `i`. -/
def zstdLevels (z : List Nat → Option (List Nat)) (buf : List Nat) :
    Nat → List KTXLevel → Except KTXError (List KTXLevel × List ZstdWarning)
  | _, [] => .ok ([], [])
  | i, l :: rest =>
    if l.byteOffset + l.byteLength ≤ buf.length then
      match z ((buf.drop l.byteOffset).take l.byteLength) with
      | none => .error (.decompressFailed i)
      | some d =>
        match zstdLevels z buf (i + 1) rest with
        | .error e => .error e
        | .ok (ls, ws) =>
          .ok ({ l with isDecompressed := true, decompressedData := some d } :: ls,
            (if d.length ≠ l.uncompressedByteLength then
              [ZstdWarning.sizeMismatch i d.length l.uncompressedByteLength] else []) ++ ws)
    else .error .rangeError

/-- media/read.js `parseKTX2`, with the `console.warn` trace of the Zstd
branch returned next to the result.  `z` is the external fzstd decompressor.
Order of operations mirrors the source: 12-byte identifier view construction
(RangeError on buffers shorter than 12 bytes), byte-for-byte magic
comparison, the 80-byte minimum-size check, header / index / level-index
reads, conditional DFD and KVD parses, then the supercompression dispatch
(`Zstd` decompress loop; `BasisLZ`, `Zlib` and unknown schemes throw). -/
def parseKTX2Core (z : List Nat → Option (List Nat)) (buf : List Nat) :
    Except KTXError (ParsedKTX2 × List ZstdWarning) :=
  if buf.length < 12 then .error .rangeError
  else if buf.take 12 ≠ KTX2_IDENTIFIER then .error .invalidIdentifier
  else if buf.length < 80 then .error .truncatedHeader
  else
    match readHeader buf, readIndex buf with
    | some h, some ix =>
      match readLevelEntries buf h.pixelWidth h.pixelHeight 0 (max 1 h.levelCount) with
      | none => .error .rangeError
      | some lvls =>
        match (if 0 < ix.dfdByteLength then
                 (parseDFD buf ix.dfdByteOffset ix.dfdByteLength).map some
               else some none) with
        | none => .error .rangeError
        | some dfd =>
          match (if 0 < ix.kvdByteLength then
                   (parseKVD buf ix.kvdByteOffset ix.kvdByteLength).map some
                 else some none) with
          | none => .error .rangeError
          | some kvd =>
            if h.supercompressionScheme = 2 then
              match zstdLevels z buf 0 lvls with
              | .error e => .error e
              | .ok (lvls2, ws) => .ok (⟨h, ix, lvls2, dfd, kvd⟩, ws)
            else if h.supercompressionScheme = 1 then .error .unsupportedBasisLZ
            else if h.supercompressionScheme = 3 then .error .unsupportedZlib
            else if h.supercompressionScheme ≠ 0 then
              .error (.unknownScheme h.supercompressionScheme)
            else .ok (⟨h, ix, lvls, dfd, kvd⟩, [])
    | _, _ => .error .rangeError

/-- media/read.js `parseKTX2` (result only, warnings dropped). -/
def parseKTX2 (z : List Nat → Option (List Nat)) (buf : List Nat) :
    Except KTXError ParsedKTX2 :=
  (parseKTX2Core z buf).map Prod.fst

end KTX2

namespace KTX2

/-! ### The extension.ts revision of parseKTX2 (BasisLZ support) -/

/-- The external Basis Universal transcoder session used by the BasisLZ
branch of the extension.ts revision of `parseKTX2`, abstracted as an oracle
(KTX2File path): whether `startTranscoding()` succeeds, what `getLevels()`
reports (`none` models a throw, defaulted to 1 by the source's catch), the
chosen GPU target format id, and the per-level transcode outcome
(`none` models a false status or a throw; `some d` a successful transcode
producing bytes `d`). -/
structure BasisOracle where
  startOk : Bool
  getLevelsResult : Option Nat
  format : Nat
  transcode : Nat → Option (List Nat)

/-- The per-level loop of the BasisLZ branch: for `i` in `[0, safe)` attach
the transcoded bytes to level `i`; on the first failed level stop (`break`),
leaving that level and all deeper levels untouched.  The first argument of
the recursion is the loop counter. -/
def basisAttach (b : BasisOracle) : Nat → Nat → List KTXLevel → List KTXLevel
  | _, _, [] => []
  | i, safe, l :: rest =>
    if i < safe then
      match b.transcode i with
      | some d =>
          { l with isDecompressed := true, decompressedData := some d,
                   transcodedFormat := some b.format } :: basisAttach b (i + 1) safe rest
      | none => l :: rest
    else l :: rest

/-- The `parseKTX2` revision embedded next to src/extension.ts: identical to
media/read.js up to the supercompression dispatch, but scheme 1 (BasisLZ) is
handled through the external transcoder session `b` instead of throwing:
after a successful `startTranscoding()` the level loop runs up to
`min(levels.length, transcoderLevelCount)` where `transcoderLevelCount` is
`getLevels()` defaulted to 1 when the query throws. -/
def parseKTX2ExtCore (z : List Nat → Option (List Nat)) (b : BasisOracle)
    (buf : List Nat) : Except KTXError (ParsedKTX2 × List ZstdWarning) :=
  if buf.length < 12 then .error .rangeError
  else if buf.take 12 ≠ KTX2_IDENTIFIER then .error .invalidIdentifier
  else if buf.length < 80 then .error .truncatedHeader
  else
    match readHeader buf, readIndex buf with
    | some h, some ix =>
      match readLevelEntries buf h.pixelWidth h.pixelHeight 0 (max 1 h.levelCount) with
      | none => .error .rangeError
      | some lvls =>
        match (if 0 < ix.dfdByteLength then
                 (parseDFD buf ix.dfdByteOffset ix.dfdByteLength).map some
               else some none) with
        | none => .error .rangeError
        | some dfd =>
          match (if 0 < ix.kvdByteLength then
                   (parseKVD buf ix.kvdByteOffset ix.kvdByteLength).map some
                 else some none) with
          | none => .error .rangeError
          | some kvd =>
            if h.supercompressionScheme = 2 then
              match zstdLevels z buf 0 lvls with
              | .error e => .error e
              | .ok (lvls2, ws) => .ok (⟨h, ix, lvls2, dfd, kvd⟩, ws)
            else if h.supercompressionScheme = 1 then
              if b.startOk then
                .ok (⟨h, ix,
                      basisAttach b 0 (min lvls.length (b.getLevelsResult.getD 1)) lvls,
                      dfd, kvd⟩, [])
              else .error .transcoderInitFailed
            else if h.supercompressionScheme = 3 then .error .unsupportedZlib
            else if h.supercompressionScheme ≠ 0 then
              .error (.unknownScheme h.supercompressionScheme)
            else .ok (⟨h, ix, lvls, dfd, kvd⟩, [])
    | _, _ => .error .rangeError

/-- The extension.ts revision of `parseKTX2` (result only). -/
def parseKTX2Ext (z : List Nat → Option (List Nat)) (b : BasisOracle)
    (buf : List Nat) : Except KTXError ParsedKTX2 :=
  (parseKTX2ExtCore z b buf).map Prod.fst

/-- Number of levels of a parse result that carry a resolved (decoded)
payload. -/
def countResolved (ls : List KTXLevel) : Nat :=
  (ls.filter (fun l => l.isDecompressed)).length

/-! ### Format mapping tables -/

/-- WebGPU texture format names used by the two mapping tables, as an
enumeration (the JS sources use the corresponding strings). -/
inductive WGPUFormat where
  | bc1RgbaUnorm
  | bc1RgbaUnormSrgb
  | bc2RgbaUnorm
  | bc2RgbaUnormSrgb
  | bc3RgbaUnorm
  | bc3RgbaUnormSrgb
  | bc4RUnorm
  | bc4RSnorm
  | bc5RgUnorm
  | bc5RgSnorm
  | bc6hRgbUfloat
  | bc6hRgbFloat
  | bc7RgbaUnorm
  | bc7RgbaUnormSrgb
  deriving DecidableEq

/-- A format-mapping-table entry: WebGPU format plus block geometry. -/
structure FormatDescriptor where
  format : WGPUFormat
  blockWidth : Nat
  blockHeight : Nat
  bytesPerBlock : Nat
  deriving DecidableEq

/-- media/read.js `vkFormatToWebGPU`: the static table mapping the Vulkan BC
format ids 131-132 and 135-146 to WebGPU formats with 4x4 blocks and 8
(BC1/BC4) or 16 bytes per block; anything else yields `none` (JS `null`). -/
def vkFormatToWebGPU : Nat → Option FormatDescriptor
  | 131 => some ⟨.bc1RgbaUnorm, 4, 4, 8⟩
  | 132 => some ⟨.bc1RgbaUnormSrgb, 4, 4, 8⟩
  | 135 => some ⟨.bc2RgbaUnorm, 4, 4, 16⟩
  | 136 => some ⟨.bc2RgbaUnormSrgb, 4, 4, 16⟩
  | 137 => some ⟨.bc3RgbaUnorm, 4, 4, 16⟩
  | 138 => some ⟨.bc3RgbaUnormSrgb, 4, 4, 16⟩
  | 139 => some ⟨.bc4RUnorm, 4, 4, 8⟩
  | 140 => some ⟨.bc4RSnorm, 4, 4, 8⟩
  | 141 => some ⟨.bc5RgUnorm, 4, 4, 16⟩
  | 142 => some ⟨.bc5RgSnorm, 4, 4, 16⟩
  | 143 => some ⟨.bc6hRgbUfloat, 4, 4, 16⟩
  | 144 => some ⟨.bc6hRgbFloat, 4, 4, 16⟩
  | 145 => some ⟨.bc7RgbaUnorm, 4, 4, 16⟩
  | 146 => some ⟨.bc7RgbaUnormSrgb, 4, 4, 16⟩
  | _ => none

/-- media/transcoder.js `NATIVE_BC_FORMATS`: the key-to-format-name lookup. -/
def NATIVE_BC_FORMATS : Nat → Option WGPUFormat
  | 131 => some .bc1RgbaUnorm
  | 132 => some .bc1RgbaUnormSrgb
  | 135 => some .bc2RgbaUnorm
  | 136 => some .bc2RgbaUnormSrgb
  | 137 => some .bc3RgbaUnorm
  | 138 => some .bc3RgbaUnormSrgb
  | 139 => some .bc4RUnorm
  | 140 => some .bc4RSnorm
  | 141 => some .bc5RgUnorm
  | 142 => some .bc5RgSnorm
  | 143 => some .bc6hRgbUfloat
  | 144 => some .bc6hRgbFloat
  | 145 => some .bc7RgbaUnorm
  | 146 => some .bc7RgbaUnormSrgb
  | _ => none

/-- media/transcoder.js `vkFormatToWebGPU`: looks the id up in
`NATIVE_BC_FORMATS` and, when found, returns the descriptor with a hard-coded
`blockWidth: 4, blockHeight: 4, bytesPerBlock: 16` for every format. -/
def vkFormatToWebGPUTranscoder (vkFormat : Nat) : Option FormatDescriptor :=
  match NATIVE_BC_FORMATS vkFormat with
  | none => none
  | some f => some ⟨f, 4, 4, 16⟩

/-! ### Upload layout planner (media/main.js) -/

/-- The padded destination buffer of the copy branches of `padRows` /
`padBlockRowsBC`: a zero-filled buffer of `aligned * rows` bytes into which
row `y` of the source (clamped to the source length, as `subarray` clamps)
is copied at offset `y * aligned`. -/
def padCopy (src : List Nat) (rowStride aligned rows : Nat) : List Nat :=
  (List.range rows).flatMap (fun y =>
    let slice := (src.drop (y * rowStride)).take rowStride
    slice ++ List.replicate (aligned - slice.length) 0)

/-- Result record of `padRows`. -/
structure PadResult where
  data : List Nat
  bytesPerRow : Nat
  deriving DecidableEq

/-- Result record of `padBlockRowsBC`. -/
structure PadBlockResult where
  data : List Nat
  bytesPerRow : Nat
  rowsPerImage : Nat
  deriving DecidableEq

/-- media/main.js `padRows`: tight stride `width * bytesPerPixel`, aligned
stride `Math.ceil(rowStride / 256) * 256`; when they agree the input buffer
itself is returned (zero-copy), otherwise each row is copied into a fresh
aligned buffer. -/
def padRows (src : List Nat) (width height bytesPerPixel : Nat) : PadResult :=
  let rowStride := width * bytesPerPixel
  let alignedStride := (rowStride + 255) / 256 * 256
  if alignedStride = rowStride then ⟨src, rowStride⟩
  else ⟨padCopy src rowStride alignedStride height, alignedStride⟩

/-- media/main.js `padBlockRowsBC`: block-row geometry
`wBlocks = max(1, ceil(width / blockWidth))`,
`hBlocks = max(1, ceil(height / blockHeight))`, tight stride
`wBlocks * bytesPerBlock`, same alignment / zero-copy rule as `padRows`,
with `rowsPerImage = hBlocks`. -/
def padBlockRowsBC (src : List Nat) (width height bytesPerBlock blockWidth blockHeight : Nat) :
    PadBlockResult :=
  let wBlocks := max 1 ((width + blockWidth - 1) / blockWidth)
  let hBlocks := max 1 ((height + blockHeight - 1) / blockHeight)
  let rowBytes := wBlocks * bytesPerBlock
  let alignedStride := (rowBytes + 255) / 256 * 256
  if alignedStride = rowBytes then ⟨src, rowBytes, hBlocks⟩
  else ⟨padCopy src rowBytes alignedStride hBlocks, alignedStride, hBlocks⟩

/-- The upload extent width computed by `loadKTX2_ToTexture`
(media/main.js): `Math.ceil(lvl.width / blockWidth) * blockWidth`. -/
def uploadWidth (w blockWidth : Nat) : Nat :=
  (w + blockWidth - 1) / blockWidth * blockWidth

/-- The upload extent height computed by `loadKTX2_ToTexture`
(media/main.js): `Math.ceil(lvl.height / blockHeight) * blockHeight`. -/
def uploadHeight (h blockHeight : Nat) : Nat :=
  (h + blockHeight - 1) / blockHeight * blockHeight

/-! ### Serialization of the documented byte layout (the builder of C1) -/

/-- The three uint64 fields of one serialized level-index entry. -/
structure LevelTriple where
  byteOffset : Nat
  byteLength : Nat
  uncompressedByteLength : Nat
  deriving DecidableEq

/-- The 24 bytes of one level-index entry. -/
def levelEntryBytes (t : LevelTriple) : List Nat :=
  u64LE t.byteOffset ++ u64LE t.byteLength ++ u64LE t.uncompressedByteLength

/-- The 36 header bytes: nine uint32 little-endian fields in file order. -/
def headerBytes (h : KTXHeader) : List Nat :=
  u32LE h.vkFormat ++ u32LE h.typeSize ++ u32LE h.pixelWidth ++ u32LE h.pixelHeight ++
  u32LE h.pixelDepth ++ u32LE h.layerCount ++ u32LE h.faceCount ++ u32LE h.levelCount ++
  u32LE h.supercompressionScheme

/-- The 32 index bytes: 4 uint32 + 2 uint64 little-endian fields. -/
def indexBytes (ix : KTXIndex) : List Nat :=
  u32LE ix.dfdByteOffset ++ u32LE ix.dfdByteLength ++ u32LE ix.kvdByteOffset ++
  u32LE ix.kvdByteLength ++ u64LE ix.sgdByteOffset ++ u64LE ix.sgdByteLength

/-- Serialize a header, index and level index in the documented byte layout:
12-byte magic, 9 uint32 header fields, 4 uint32 + 2 uint64 index fields, then
the level entries (3 uint64 each), followed by arbitrary payload bytes. -/
def buildKTX2 (h : KTXHeader) (ix : KTXIndex) (lvls : List LevelTriple)
    (payload : List Nat) : List Nat :=
  KTX2_IDENTIFIER ++ headerBytes h ++ indexBytes ix ++
    lvls.flatMap levelEntryBytes ++ payload

/-- The level list a successful parse of `buildKTX2` output is expected to
produce, starting at level index `i`. -/
def mkLevels (pw ph : Nat) : Nat → List LevelTriple → List KTXLevel
  | _, [] => []
  | i, t :: rest =>
      { byteOffset := roundToDouble t.byteOffset
        byteLength := roundToDouble t.byteLength
        uncompressedByteLength := roundToDouble t.uncompressedByteLength
        width := (max 1 (jsShr pw i)).toNat
        height := (max 1 (jsShr ph i)).toNat
        isDecompressed := false
        decompressedData := none
        transcodedFormat := none } :: mkLevels pw ph (i + 1) rest

end KTX2

namespace KTX2

/-! ### Decoding lemmas for serialized buffers -/

/-- The value `readU32` reconstructs from the four bytes of `u32LE n`. -/
def recomb32 (n : Nat) : Nat :=
  n % 256 + 256 * (n / 256 % 256) + 65536 * (n / 65536 % 256) + 16777216 * (n / 16777216 % 256)

lemma recomb32_eq (n : Nat) (h : n < 4294967296) : recomb32 n = n := by
  unfold recomb32; omega

/-- The value `readU64` reconstructs from the eight bytes of `u64LE n`. -/
def recomb64 (n : Nat) : Nat :=
  n % 4294967296 % 256 + 256 * (n % 4294967296 / 256 % 256) +
  65536 * (n % 4294967296 / 65536 % 256) + 16777216 * (n % 4294967296 / 16777216 % 256) +
  4294967296 * (n / 4294967296 % 256) + 1099511627776 * (n / 4294967296 / 256 % 256) +
  281474976710656 * (n / 4294967296 / 65536 % 256) +
  72057594037927936 * (n / 4294967296 / 16777216 % 256)

lemma recomb64_eq (n : Nat) (h : n < 18446744073709551616) : recomb64 n = n := by
  unfold recomb64; omega

lemma readU64_u64LE (n : Nat) (rest : List Nat) :
    readU64 (u64LE n ++ rest) = some (recomb64 n) := rfl

lemma readU64At_pre (pre : List Nat) (n : Nat) (suf : List Nat) :
    readU64At (pre ++ (u64LE n ++ suf)) pre.length = some (recomb64 n) := by
  unfold readU64At
  rw [List.drop_left]
  exact readU64_u64LE n suf

lemma readU64At_pre8 (pre : List Nat) (a n : Nat) (suf : List Nat) :
    readU64At (pre ++ (u64LE a ++ (u64LE n ++ suf))) (pre.length + 8) =
      some (recomb64 n) := by
  have hshape : pre ++ (u64LE a ++ (u64LE n ++ suf)) = (pre ++ u64LE a) ++ (u64LE n ++ suf) := by
    simp [List.append_assoc]
  have hlen : pre.length + 8 = (pre ++ u64LE a).length := by
    simp [u64LE, u32LE]
  rw [hshape, hlen, readU64At_pre]

lemma readU64At_pre16 (pre : List Nat) (a b n : Nat) (suf : List Nat) :
    readU64At (pre ++ (u64LE a ++ (u64LE b ++ (u64LE n ++ suf)))) (pre.length + 16) =
      some (recomb64 n) := by
  have hshape : pre ++ (u64LE a ++ (u64LE b ++ (u64LE n ++ suf))) =
      (pre ++ (u64LE a ++ u64LE b)) ++ (u64LE n ++ suf) := by
    simp [List.append_assoc]
  have hlen : pre.length + 16 = (pre ++ (u64LE a ++ u64LE b)).length := by
    simp [u64LE, u32LE]
  rw [hshape, hlen, readU64At_pre]

lemma levelEntryBytes_length (t : LevelTriple) : (levelEntryBytes t).length = 24 := by
  simp [levelEntryBytes, u64LE, u32LE]

lemma flatMap_levelEntryBytes_length (lvls : List LevelTriple) :
    (lvls.flatMap levelEntryBytes).length = 24 * lvls.length := by
  induction lvls with
  | nil => simp
  | cons t rest ih => simp [List.flatMap_cons, levelEntryBytes_length, ih]; ring

lemma buildKTX2_length (h : KTXHeader) (ix : KTXIndex) (lvls : List LevelTriple)
    (payload : List Nat) :
    (buildKTX2 h ix lvls payload).length = 80 + 24 * lvls.length + payload.length := by
  simp only [buildKTX2, List.length_append, flatMap_levelEntryBytes_length]
  simp [KTX2_IDENTIFIER, headerBytes, indexBytes, u32LE, u64LE]
  try ring

lemma buildKTX2_take12 (h : KTXHeader) (ix : KTXIndex) (lvls : List LevelTriple)
    (payload : List Nat) :
    (buildKTX2 h ix lvls payload).take 12 = KTX2_IDENTIFIER := rfl

/-- Boundedness of the nine uint32 header fields. -/
def Header32 (h : KTXHeader) : Prop :=
  h.vkFormat < 4294967296 ∧ h.typeSize < 4294967296 ∧ h.pixelWidth < 4294967296 ∧
  h.pixelHeight < 4294967296 ∧ h.pixelDepth < 4294967296 ∧ h.layerCount < 4294967296 ∧
  h.faceCount < 4294967296 ∧ h.levelCount < 4294967296 ∧ h.supercompressionScheme < 4294967296

instance (h : KTXHeader) : Decidable (Header32 h) := by
  unfold Header32; infer_instance

/-- Boundedness of the index fields (uint32 / uint64 as serialized). -/
def Index32 (ix : KTXIndex) : Prop :=
  ix.dfdByteOffset < 4294967296 ∧ ix.dfdByteLength < 4294967296 ∧
  ix.kvdByteOffset < 4294967296 ∧ ix.kvdByteLength < 4294967296 ∧
  ix.sgdByteOffset < 18446744073709551616 ∧ ix.sgdByteLength < 18446744073709551616

instance (ix : KTXIndex) : Decidable (Index32 ix) := by
  unfold Index32; infer_instance

/-- Boundedness of one level entry as a serialized uint64 triple. -/
def Triple64 (t : LevelTriple) : Prop :=
  t.byteOffset < 18446744073709551616 ∧ t.byteLength < 18446744073709551616 ∧
  t.uncompressedByteLength < 18446744073709551616

instance (t : LevelTriple) : Decidable (Triple64 t) := by
  unfold Triple64; infer_instance

/-- Exact representability of one level entry in a JS double (below 2^53),
under which `Number(...)` round-trips the written value exactly. -/
def Triple53 (t : LevelTriple) : Prop :=
  t.byteOffset < 9007199254740992 ∧ t.byteLength < 9007199254740992 ∧
  t.uncompressedByteLength < 9007199254740992

instance (t : LevelTriple) : Decidable (Triple53 t) := by
  unfold Triple53; infer_instance

lemma readHeader_build (h : KTXHeader) (ix : KTXIndex) (lvls : List LevelTriple)
    (payload : List Nat) (hb : Header32 h) :
    readHeader (buildKTX2 h ix lvls payload) = some h := by
  obtain ⟨b1, b2, b3, b4, b5, b6, b7, b8, b9⟩ := hb
  have hr : readHeader (buildKTX2 h ix lvls payload) =
      some ⟨recomb32 h.vkFormat, recomb32 h.typeSize, recomb32 h.pixelWidth,
            recomb32 h.pixelHeight, recomb32 h.pixelDepth, recomb32 h.layerCount,
            recomb32 h.faceCount, recomb32 h.levelCount,
            recomb32 h.supercompressionScheme⟩ := rfl
  rw [hr, recomb32_eq _ b1, recomb32_eq _ b2, recomb32_eq _ b3, recomb32_eq _ b4,
    recomb32_eq _ b5, recomb32_eq _ b6, recomb32_eq _ b7, recomb32_eq _ b8, recomb32_eq _ b9]

/-- The index record a parse of built bytes produces: the two uint64 fields
go through `Number(...)`. -/
def mkIndex (ix : KTXIndex) : KTXIndex :=
  ⟨ix.dfdByteOffset, ix.dfdByteLength, ix.kvdByteOffset, ix.kvdByteLength,
   roundToDouble ix.sgdByteOffset, roundToDouble ix.sgdByteLength⟩

lemma readIndex_build (h : KTXHeader) (ix : KTXIndex) (lvls : List LevelTriple)
    (payload : List Nat) (hb : Index32 ix) :
    readIndex (buildKTX2 h ix lvls payload) = some (mkIndex ix) := by
  obtain ⟨b1, b2, b3, b4, b5, b6⟩ := hb
  have hr : readIndex (buildKTX2 h ix lvls payload) =
      some ⟨recomb32 ix.dfdByteOffset, recomb32 ix.dfdByteLength, recomb32 ix.kvdByteOffset,
            recomb32 ix.kvdByteLength, roundToDouble (recomb64 ix.sgdByteOffset),
            roundToDouble (recomb64 ix.sgdByteLength)⟩ := rfl
  rw [hr, recomb32_eq _ b1, recomb32_eq _ b2, recomb32_eq _ b3, recomb32_eq _ b4,
    recomb64_eq _ b5, recomb64_eq _ b6]
  rfl

end KTX2

namespace KTX2

lemma readLevelEntries_build (pw ph : Nat) (lvls : List LevelTriple) :
    ∀ (i : Nat) (pre tail : List Nat), pre.length = 80 + 24 * i →
    (∀ t' ∈ lvls, Triple64 t') →
    readLevelEntries (pre ++ (lvls.flatMap levelEntryBytes ++ tail)) pw ph i lvls.length =
      some (mkLevels pw ph i lvls) := by
  induction lvls with
  | nil => intro i pre tail hpre hb; simp [readLevelEntries, mkLevels]
  | cons t rest ih =>
    intro i pre tail hpre hb
    have hshape : pre ++ ((t :: rest).flatMap levelEntryBytes ++ tail) =
        pre ++ (u64LE t.byteOffset ++ (u64LE t.byteLength ++
          (u64LE t.uncompressedByteLength ++ (rest.flatMap levelEntryBytes ++ tail)))) := by
      simp [List.flatMap_cons, levelEntryBytes, List.append_assoc]
    rw [hshape]
    show readLevelEntries _ pw ph i (rest.length + 1) = _
    rw [readLevelEntries]
    rw [← hpre]
    rw [readU64At_pre, readU64At_pre8, readU64At_pre16]
    have hrec : readLevelEntries
        (pre ++ (u64LE t.byteOffset ++ (u64LE t.byteLength ++
          (u64LE t.uncompressedByteLength ++ (rest.flatMap levelEntryBytes ++ tail)))))
        pw ph (i + 1) rest.length = some (mkLevels pw ph (i + 1) rest) := by
      have hshape2 : pre ++ (u64LE t.byteOffset ++ (u64LE t.byteLength ++
          (u64LE t.uncompressedByteLength ++ (rest.flatMap levelEntryBytes ++ tail)))) =
          (pre ++ levelEntryBytes t) ++ (rest.flatMap levelEntryBytes ++ tail) := by
        simp [levelEntryBytes, List.append_assoc]
      rw [hshape2]
      apply ih (i + 1) (pre ++ levelEntryBytes t) tail
      · simp [levelEntryBytes_length, hpre]; ring
      · intro t' ht'; exact hb t' (List.mem_cons_of_mem _ ht')
    rw [hrec]
    obtain ⟨hb1, hb2, hb3⟩ := hb t (List.mem_cons_self t rest)
    rw [recomb64_eq _ hb1, recomb64_eq _ hb2, recomb64_eq _ hb3]
    rfl

end KTX2

namespace KTX2

/-- The supercompression dispatch tail of `parseKTX2Core`, reached once the
magic, header, index, level index, DFD and KVD have been processed. -/
def schemeDispatch (z : List Nat → Option (List Nat)) (buf : List Nat) (h : KTXHeader)
    (ix : KTXIndex) (lvls0 : List KTXLevel) (dfd : Option DFD)
    (kvd : Option (List (List Nat × List Nat))) :
    Except KTXError (ParsedKTX2 × List ZstdWarning) :=
  if h.supercompressionScheme = 2 then
    match zstdLevels z buf 0 lvls0 with
    | .error e => .error e
    | .ok (lvls2, ws) => .ok (⟨h, ix, lvls2, dfd, kvd⟩, ws)
  else if h.supercompressionScheme = 1 then .error .unsupportedBasisLZ
  else if h.supercompressionScheme = 3 then .error .unsupportedZlib
  else if h.supercompressionScheme ≠ 0 then .error (.unknownScheme h.supercompressionScheme)
  else .ok (⟨h, ix, lvls0, dfd, kvd⟩, [])

lemma parseKTX2Core_build (z : List Nat → Option (List Nat)) (h : KTXHeader) (ix : KTXIndex)
    (lvls : List LevelTriple) (payload : List Nat)
    (hH : Header32 h) (hI : Index32 ix) (hT : ∀ t ∈ lvls, Triple64 t)
    (hlen : lvls.length = max 1 h.levelCount)
    (hdfd : ix.dfdByteLength = 0) (hkvd : ix.kvdByteLength = 0) :
    parseKTX2Core z (buildKTX2 h ix lvls payload) =
      schemeDispatch z (buildKTX2 h ix lvls payload) h (mkIndex ix)
        (mkLevels h.pixelWidth h.pixelHeight 0 lvls) none none := by
  have hlenB := buildKTX2_length h ix lvls payload
  have hlv : readLevelEntries (buildKTX2 h ix lvls payload) h.pixelWidth h.pixelHeight 0
      (max 1 h.levelCount) = some (mkLevels h.pixelWidth h.pixelHeight 0 lvls) := by
    rw [← hlen]
    have hshape : buildKTX2 h ix lvls payload =
        (KTX2_IDENTIFIER ++ headerBytes h ++ indexBytes ix) ++
          (lvls.flatMap levelEntryBytes ++ payload) := by
      simp [buildKTX2, List.append_assoc]
    rw [hshape]
    apply readLevelEntries_build h.pixelWidth h.pixelHeight lvls 0 _ payload _ hT
    simp [KTX2_IDENTIFIER, headerBytes, indexBytes, u32LE, u64LE]
  unfold parseKTX2Core
  rw [if_neg (by omega), if_neg (by simp [buildKTX2_take12]), if_neg (by omega)]
  rw [readHeader_build h ix lvls payload hH, readIndex_build h ix lvls payload hI]
  simp only [hlv]
  simp [mkIndex, hdfd, hkvd, schemeDispatch]

end KTX2

namespace KTX2

lemma roundToDouble_of_lt (n : Nat) (h : n < 9007199254740992) : roundToDouble n = n := by
  unfold roundToDouble
  rw [if_pos h]

lemma Triple53.to64 (t : LevelTriple) (h : Triple53 t) : Triple64 t := by
  obtain ⟨h1, h2, h3⟩ := h
  exact ⟨by omega, by omega, by omega⟩

lemma mkIndex_of_small (ix : KTXIndex) (h1 : ix.sgdByteOffset < 9007199254740992)
    (h2 : ix.sgdByteLength < 9007199254740992) : mkIndex ix = ix := by
  simp [mkIndex, roundToDouble_of_lt _ h1, roundToDouble_of_lt _ h2]

lemma mkLevels_proj (pw ph : Nat) (lvls : List LevelTriple) :
    ∀ i : Nat, (∀ t ∈ lvls, Triple53 t) →
    (mkLevels pw ph i lvls).map
        (fun l => (l.byteOffset, l.byteLength, l.uncompressedByteLength)) =
      lvls.map (fun t => (t.byteOffset, t.byteLength, t.uncompressedByteLength)) := by
  induction lvls with
  | nil => intro i _; simp [mkLevels]
  | cons t rest ih =>
    intro i hT
    obtain ⟨h1, h2, h3⟩ := hT t (List.mem_cons_self t rest)
    simp only [mkLevels, List.map_cons]
    rw [roundToDouble_of_lt _ h1, roundToDouble_of_lt _ h2, roundToDouble_of_lt _ h3,
      ih (i + 1) (fun t' ht' => hT t' (List.mem_cons_of_mem _ ht'))]

/-- C1: for every valid header, index and level-index serialized in the
documented byte layout (12-byte magic, 9 uint32 LE header fields in fixed
order, 4 uint32 + 2 uint64 index fields, then `max(1, levelCount)` level
entries of 3 uint64 fields each, followed by arbitrary payload bytes),
`parseKTX2` returns a header, index and level list in which every field
equals the value originally written.  Validity here means: uint32 fields fit
32 bits, uint64 fields are exactly representable in a JS double (< 2^53),
the level-entry count matches `max(1, levelCount)`, the supercompression
scheme is 0 (None, so no external codecs run), and the DFD / KVD blocks are
absent (length 0). -/
theorem C1_parse_roundtrip (z : List Nat → Option (List Nat)) (h : KTXHeader)
    (ix : KTXIndex) (lvls : List LevelTriple) (payload : List Nat)
    (hH : Header32 h) (hI : Index32 ix) (hT : ∀ t ∈ lvls, Triple53 t)
    (hsgdO : ix.sgdByteOffset < 9007199254740992)
    (hsgdL : ix.sgdByteLength < 9007199254740992)
    (hlen : lvls.length = max 1 h.levelCount)
    (hsch : h.supercompressionScheme = 0)
    (hdfd : ix.dfdByteLength = 0) (hkvd : ix.kvdByteLength = 0) :
    ∃ r : ParsedKTX2, parseKTX2 z (buildKTX2 h ix lvls payload) = .ok r ∧
      r.header = h ∧ r.index = ix ∧
      r.levels.map (fun l => (l.byteOffset, l.byteLength, l.uncompressedByteLength)) =
        lvls.map (fun t => (t.byteOffset, t.byteLength, t.uncompressedByteLength)) := by
  refine ⟨⟨h, mkIndex ix, mkLevels h.pixelWidth h.pixelHeight 0 lvls, none, none⟩, ?_, ?_, ?_, ?_⟩
  · unfold parseKTX2
    rw [parseKTX2Core_build z h ix lvls payload hH hI (fun t ht => (hT t ht).to64) hlen hdfd hkvd]
    simp [schemeDispatch, hsch, Except.map]
  · rfl
  · exact mkIndex_of_small ix hsgdO hsgdL
  · exact mkLevels_proj h.pixelWidth h.pixelHeight lvls 0 hT

end KTX2

namespace KTX2

/-- Witness for C1 at a concrete container: a 2-level BC7 header with scheme
None round-trips exactly. -/
theorem C1_parse_roundtrip_witness :
    ∃ r : ParsedKTX2,
      parseKTX2 (fun _ => none)
        (buildKTX2 ⟨145, 1, 8, 8, 0, 0, 1, 2, 0⟩ ⟨0, 0, 0, 0, 300, 400⟩
          [⟨104, 16, 16⟩, ⟨120, 16, 16⟩] [1, 2, 3]) = .ok r ∧
      r.header = ⟨145, 1, 8, 8, 0, 0, 1, 2, 0⟩ ∧
      r.index = ⟨0, 0, 0, 0, 300, 400⟩ ∧
      r.levels.map (fun l => (l.byteOffset, l.byteLength, l.uncompressedByteLength)) =
        ([⟨104, 16, 16⟩, ⟨120, 16, 16⟩] : List LevelTriple).map
          (fun t => (t.byteOffset, t.byteLength, t.uncompressedByteLength)) :=
  C1_parse_roundtrip (fun _ => none) ⟨145, 1, 8, 8, 0, 0, 1, 2, 0⟩ ⟨0, 0, 0, 0, 300, 400⟩
    [⟨104, 16, 16⟩, ⟨120, 16, 16⟩] [1, 2, 3] (by decide) (by decide) (by decide)
    (by decide) (by decide) (by decide) (by decide) (by decide) (by decide)

/-- Default level record used with `List.getD`. -/
def dummyLevel : KTXLevel :=
  ⟨0, 0, 0, 0, 0, false, none, none⟩

lemma readLevelEntries_spec (buf : List Nat) (pw ph : Nat) :
    ∀ (n i : Nat) (ls : List KTXLevel), readLevelEntries buf pw ph i n = some ls →
      ls.length = n ∧ ∀ j, j < n →
        (ls.getD j dummyLevel).width = (max 1 (jsShr pw (i + j))).toNat ∧
        (ls.getD j dummyLevel).height = (max 1 (jsShr ph (i + j))).toNat := by
  intro n
  induction n with
  | zero =>
    intro i ls hok
    simp [readLevelEntries] at hok
    subst hok
    exact ⟨rfl, fun j hj => absurd hj (by omega)⟩
  | succ m ih =>
    intro i ls hok
    rw [readLevelEntries] at hok
    rcases h1 : readU64At buf (80 + 24 * i) with _ | bo <;> rw [h1] at hok
    · simp at hok
    rcases h2 : readU64At buf (80 + 24 * i + 8) with _ | bl <;> rw [h2] at hok
    · simp at hok
    rcases h3 : readU64At buf (80 + 24 * i + 16) with _ | ul <;> rw [h3] at hok
    · simp at hok
    rcases h4 : readLevelEntries buf pw ph (i + 1) m with _ | rest <;> rw [h4] at hok
    · simp at hok
    simp only [Option.some.injEq] at hok
    subst hok
    obtain ⟨hlen, hrec⟩ := ih (i + 1) rest h4
    refine ⟨by simp [hlen], ?_⟩
    intro j hj
    cases j with
    | zero => simp [List.getD]
    | succ k =>
      have hk := hrec k (by omega)
      have harith : i + 1 + k = i + (k + 1) := by omega
      rw [harith] at hk
      simpa [List.getD] using hk

lemma zstdLevels_geom (z : List Nat → Option (List Nat)) (buf : List Nat) :
    ∀ (ls : List KTXLevel) (i : Nat) (ls' : List KTXLevel) (ws : List ZstdWarning),
      zstdLevels z buf i ls = .ok (ls', ws) →
      ls'.length = ls.length ∧ ∀ j : Nat,
        (ls'.getD j dummyLevel).width = (ls.getD j dummyLevel).width ∧
        (ls'.getD j dummyLevel).height = (ls.getD j dummyLevel).height := by
  intro ls
  induction ls with
  | nil =>
    intro i ls' ws hok
    simp [zstdLevels] at hok
    obtain ⟨h1, _⟩ := hok
    subst h1
    exact ⟨rfl, fun j => ⟨rfl, rfl⟩⟩
  | cons l rest ih =>
    intro i ls' ws hok
    rw [zstdLevels] at hok
    by_cases hb : l.byteOffset + l.byteLength ≤ buf.length
    · rw [if_pos hb] at hok
      rcases hz : z ((buf.drop l.byteOffset).take l.byteLength) with _ | d <;> rw [hz] at hok
      · simp at hok
      rcases hr : zstdLevels z buf (i + 1) rest with e | p <;> rw [hr] at hok
      · simp at hok
      rcases p with ⟨ls2, ws2⟩
      simp only [Except.ok.injEq, Prod.mk.injEq] at hok
      obtain ⟨h1, _⟩ := hok
      subst h1
      obtain ⟨hlen, hj⟩ := ih (i + 1) ls2 ws2 hr
      refine ⟨by simp [hlen], ?_⟩
      intro j
      cases j with
      | zero => simp [List.getD]
      | succ k => simpa [List.getD] using hj k
    · rw [if_neg hb] at hok
      simp at hok

end KTX2

namespace KTX2

lemma parseKTX2Core_ok_struct (z : List Nat → Option (List Nat)) (buf : List Nat)
    (r : ParsedKTX2) (ws : List ZstdWarning)
    (hok : parseKTX2Core z buf = .ok (r, ws)) :
    ∃ lvls0, readLevelEntries buf r.header.pixelWidth r.header.pixelHeight 0
        (max 1 r.header.levelCount) = some lvls0 ∧
      (r.levels = lvls0 ∨ zstdLevels z buf 0 lvls0 = .ok (r.levels, ws)) := by
  unfold parseKTX2Core at hok
  by_cases h12 : buf.length < 12
  · rw [if_pos h12] at hok; simp at hok
  rw [if_neg h12] at hok
  by_cases hmag : buf.take 12 ≠ KTX2_IDENTIFIER
  · rw [if_pos hmag] at hok; simp at hok
  rw [if_neg hmag] at hok
  by_cases h80 : buf.length < 80
  · rw [if_pos h80] at hok; simp at hok
  rw [if_neg h80] at hok
  rcases hh : readHeader buf with _ | h' <;> rw [hh] at hok
  · simp at hok
  rcases hix : readIndex buf with _ | ix' <;> rw [hix] at hok
  · simp at hok
  simp only [] at hok
  rcases hlv : readLevelEntries buf h'.pixelWidth h'.pixelHeight 0 (max 1 h'.levelCount)
    with _ | lvls0 <;> rw [hlv] at hok
  · simp at hok
  rcases hdfd : (if 0 < ix'.dfdByteLength then
      (parseDFD buf ix'.dfdByteOffset ix'.dfdByteLength).map some else some none)
    with _ | dfd <;> rw [hdfd] at hok
  · simp at hok
  rcases hkvd : (if 0 < ix'.kvdByteLength then
      (parseKVD buf ix'.kvdByteOffset ix'.kvdByteLength).map some else some none)
    with _ | kvd <;> rw [hkvd] at hok
  · simp at hok
  replace hok : schemeDispatch z buf h' ix' lvls0 dfd kvd = Except.ok (r, ws) := hok
  unfold schemeDispatch at hok
  by_cases hs2 : h'.supercompressionScheme = 2
  · rw [if_pos hs2] at hok
    rcases hz : zstdLevels z buf 0 lvls0 with e | p <;> rw [hz] at hok
    · simp at hok
    rcases p with ⟨lvls2, ws2⟩
    replace hok : (Except.ok ((⟨h', ix', lvls2, dfd, kvd⟩ : ParsedKTX2), ws2) :
        Except KTXError (ParsedKTX2 × List ZstdWarning)) = Except.ok (r, ws) := hok
    simp only [Except.ok.injEq, Prod.mk.injEq] at hok
    obtain ⟨h1, h2⟩ := hok
    subst h2
    rw [← h1]
    exact ⟨lvls0, hlv, Or.inr hz⟩
  rw [if_neg hs2] at hok
  by_cases hs1 : h'.supercompressionScheme = 1
  · rw [if_pos hs1] at hok; simp at hok
  rw [if_neg hs1] at hok
  by_cases hs3 : h'.supercompressionScheme = 3
  · rw [if_pos hs3] at hok; simp at hok
  rw [if_neg hs3] at hok
  by_cases hs0 : h'.supercompressionScheme ≠ 0
  · rw [if_pos hs0] at hok; simp at hok
  rw [if_neg hs0] at hok
  simp only [Except.ok.injEq, Prod.mk.injEq] at hok
  obtain ⟨h1, _⟩ := hok
  rw [← h1]
  exact ⟨lvls0, hlv, Or.inl rfl⟩

end KTX2

namespace KTX2

/-- C2: for every container accepted by `parseKTX2` and every level index
`i` below the level count, the `i`-th level entry satisfies
`width = max(1, pixelWidth >> i)` and `height = max(1, pixelHeight >> i)`,
where `>>` is the JS signed 32-bit shift the source applies to the header's
base dimensions and level 0 is the base level; the number of entries is
`max(1, levelCount)`. -/
theorem C2_mip_dimension_law (z : List Nat → Option (List Nat)) (buf : List Nat)
    (r : ParsedKTX2) (hok : parseKTX2 z buf = .ok r) :
    r.levels.length = max 1 r.header.levelCount ∧
    ∀ i, i < r.levels.length →
      (r.levels.getD i dummyLevel).width = (max 1 (jsShr r.header.pixelWidth i)).toNat ∧
      (r.levels.getD i dummyLevel).height = (max 1 (jsShr r.header.pixelHeight i)).toNat := by
  unfold parseKTX2 at hok
  rcases hc : parseKTX2Core z buf with e | p <;> rw [hc] at hok
  · simp [Except.map] at hok
  rcases p with ⟨r', ws⟩
  simp only [Except.map, Except.ok.injEq] at hok
  subst hok
  obtain ⟨lvls0, hlv, hcase⟩ := parseKTX2Core_ok_struct z buf r' ws hc
  obtain ⟨hlen0, hspec⟩ :=
    readLevelEntries_spec buf r'.header.pixelWidth r'.header.pixelHeight
      (max 1 r'.header.levelCount) 0 lvls0 hlv
  rcases hcase with heq | hz
  · rw [heq, hlen0]
    refine ⟨rfl, ?_⟩
    intro i hi
    have := hspec i (by omega)
    simpa using this
  · obtain ⟨hlenz, hgeom⟩ := zstdLevels_geom z buf lvls0 0 r'.levels ws hz
    rw [hlenz, hlen0]
    refine ⟨rfl, ?_⟩
    intro i hi
    obtain ⟨hw, hh⟩ := hgeom i
    have := hspec i (by omega)
    rw [hw, hh]
    simpa using this

/-- Concrete container used by the C2 witness: 4x4 base size, 2 levels. -/
def c2WitnessBuf : List Nat :=
  buildKTX2 ⟨145, 1, 4, 4, 0, 0, 1, 2, 0⟩ ⟨0, 0, 0, 0, 0, 0⟩ [⟨0, 0, 0⟩, ⟨0, 0, 0⟩] []

/-- The parse result of `c2WitnessBuf`. -/
def c2WitnessResult : ParsedKTX2 :=
  ⟨⟨145, 1, 4, 4, 0, 0, 1, 2, 0⟩, ⟨0, 0, 0, 0, 0, 0⟩,
   [⟨0, 0, 0, 4, 4, false, none, none⟩, ⟨0, 0, 0, 2, 2, false, none, none⟩], none, none⟩

set_option maxRecDepth 4000 in
/-- Witness for C2: the mip dimension law evaluated on a concrete parsed
2-level container (level widths 4 and 2). -/
theorem C2_mip_dimension_law_witness :
    c2WitnessResult.levels.length = max 1 c2WitnessResult.header.levelCount ∧
    ∀ i, i < c2WitnessResult.levels.length →
      (c2WitnessResult.levels.getD i dummyLevel).width =
        (max 1 (jsShr c2WitnessResult.header.pixelWidth i)).toNat ∧
      (c2WitnessResult.levels.getD i dummyLevel).height =
        (max 1 (jsShr c2WitnessResult.header.pixelHeight i)).toNat :=
  C2_mip_dimension_law (fun _ => none) c2WitnessBuf c2WitnessResult (by rfl)

end KTX2

namespace KTX2

lemma dvd_alignedStride (s : Nat) : 256 ∣ (s + 255) / 256 * 256 :=
  dvd_mul_left 256 ((s + 255) / 256)

lemma alignedStride_eq_of_dvd (s : Nat) (hs : 256 ∣ s) : (s + 255) / 256 * 256 = s := by
  omega

lemma ceil_mul_bounds (a b : Nat) (ha : 1 ≤ a) (hb : 1 ≤ b) :
    a ≤ (a + b - 1) / b * b ∧ (a + b - 1) / b * b < a + b := by
  have h1 : a + b - 1 = (a - 1) + b := by omega
  rw [h1, Nat.add_div_right _ hb, Nat.succ_mul]
  have h2 := Nat.div_add_mod (a - 1) b
  have h3 : (a - 1) % b < b := Nat.mod_lt _ hb
  rw [Nat.mul_comm b ((a - 1) / b)] at h2
  generalize (a - 1) / b * b = t at h2 ⊢
  generalize (a - 1) % b = s at h2 h3
  omega

lemma ceilDiv_pos (a b : Nat) (ha : 1 ≤ a) (hb : 1 ≤ b) : 1 ≤ (a + b - 1) / b := by
  rw [Nat.le_div_iff_mul_le hb]
  omega

/-- C3: for every payload buffer, dimensions at least 1 and per-texel /
per-block byte count, both planner regimes (`padRows` for 1x1-block formats,
`padBlockRowsBC` for block-compressed formats) return a `bytesPerRow`
divisible by 256; and whenever the tight row stride is already a multiple of
256, the returned buffer is the input itself (the source's zero-copy branch)
with `bytesPerRow` equal to the tight stride (and, for the block regime,
`rowsPerImage` the block-column count). -/
theorem C3_padding_aligned_zero_copy (src : List Nat) (w h bpp bpb bw bh : Nat)
    (_hw : 1 ≤ w) (_hh : 1 ≤ h) :
    256 ∣ (padRows src w h bpp).bytesPerRow ∧
    256 ∣ (padBlockRowsBC src w h bpb bw bh).bytesPerRow ∧
    (256 ∣ w * bpp → padRows src w h bpp = ⟨src, w * bpp⟩) ∧
    (256 ∣ max 1 ((w + bw - 1) / bw) * bpb →
      padBlockRowsBC src w h bpb bw bh =
        ⟨src, max 1 ((w + bw - 1) / bw) * bpb, max 1 ((h + bh - 1) / bh)⟩) := by
  refine ⟨?_, ?_, ?_, ?_⟩
  · simp only [padRows]
    split
    · next heq => rw [← heq]; exact dvd_alignedStride _
    · exact dvd_alignedStride _
  · simp only [padBlockRowsBC]
    split
    · next heq => rw [← heq]; exact dvd_alignedStride _
    · exact dvd_alignedStride _
  · intro hdvd
    simp only [padRows]
    rw [if_pos (alignedStride_eq_of_dvd _ hdvd)]
  · intro hdvd
    simp only [padBlockRowsBC]
    rw [if_pos (alignedStride_eq_of_dvd _ hdvd)]

/-- Witness for C3 at a concrete input: a 64-texel row at 4 bytes per texel
(tight stride 256) is returned without copy in both regimes (the block regime
sees 16 blocks of 16 bytes, also tight stride 256). -/
theorem C3_padding_aligned_zero_copy_witness :
    256 ∣ (padRows [1, 2, 3] 64 1 4).bytesPerRow ∧
    256 ∣ (padBlockRowsBC [1, 2, 3] 64 1 16 4 4).bytesPerRow ∧
    padRows [1, 2, 3] 64 1 4 = ⟨[1, 2, 3], 64 * 4⟩ ∧
    padBlockRowsBC [1, 2, 3] 64 1 16 4 4 =
      ⟨[1, 2, 3], max 1 ((64 + 4 - 1) / 4) * 16, max 1 ((1 + 4 - 1) / 4)⟩ := by
  obtain ⟨a, b, c, d⟩ :=
    C3_padding_aligned_zero_copy [1, 2, 3] 64 1 4 16 4 4 (by decide) (by decide)
  exact ⟨a, b, c (by decide), d (by decide)⟩

/-- C4: for every block-compressed level of size `width x height` with block
dimensions `blockWidth x blockHeight` (all at least 1), the upload extent
computed by `loadKTX2_ToTexture` is the width and height each rounded up to
the next multiple of the block dimension, and the plan's `rowsPerImage` is
the block-column count `ceil(height / blockHeight)`. -/
theorem C4_upload_extent_rounding (src : List Nat) (w h bw bh bpb : Nat)
    (hw : 1 ≤ w) (hh : 1 ≤ h) (hbw : 1 ≤ bw) (hbh : 1 ≤ bh) :
    (bw ∣ uploadWidth w bw ∧ w ≤ uploadWidth w bw ∧ uploadWidth w bw < w + bw) ∧
    (bh ∣ uploadHeight h bh ∧ h ≤ uploadHeight h bh ∧ uploadHeight h bh < h + bh) ∧
    (padBlockRowsBC src w h bpb bw bh).rowsPerImage = (h + bh - 1) / bh := by
  obtain ⟨hw1, hw2⟩ := ceil_mul_bounds w bw hw hbw
  obtain ⟨hh1, hh2⟩ := ceil_mul_bounds h bh hh hbh
  refine ⟨⟨dvd_mul_left bw _, hw1, hw2⟩, ⟨dvd_mul_left bh _, hh1, hh2⟩, ?_⟩
  have hpos := ceilDiv_pos h bh hh hbh
  simp only [padBlockRowsBC]
  split <;> simp <;> omega

/-- Witness for C4: a 5x5 level with 4x4 blocks gets an 8x8 upload extent,
and the 1x1 case gives 4x4; the 5x5 plan reports 2 block rows. -/
theorem C4_upload_extent_rounding_witness :
    ((4 ∣ uploadWidth 5 4 ∧ 5 ≤ uploadWidth 5 4 ∧ uploadWidth 5 4 < 5 + 4) ∧
      (4 ∣ uploadHeight 5 4 ∧ 5 ≤ uploadHeight 5 4 ∧ uploadHeight 5 4 < 5 + 4) ∧
      (padBlockRowsBC [7] 5 5 16 4 4).rowsPerImage = (5 + 4 - 1) / 4) ∧
    uploadWidth 5 4 = 8 ∧ uploadHeight 5 4 = 8 ∧
    uploadWidth 1 4 = 4 ∧ uploadHeight 1 4 = 4 :=
  ⟨C4_upload_extent_rounding [7] 5 5 4 4 16 (by decide) (by decide) (by decide) (by decide),
   by decide, by decide, by decide, by decide⟩

end KTX2

namespace KTX2

/-- C5 (divergence evidence): the repository ships two resolvers named
`vkFormatToWebGPU`.  The media/read.js table returns 8 bytes per block for the
BC1/BC4 variants (131, 132, 139, 140) as the claim states, but the
media/transcoder.js resolver — the one main.js installs on `window` — returns
a hard-coded 16 bytes per block for those same identifiers, contradicting the
claim and read.js's own documented geometry; identifiers outside the known
set resolve to `none` in both tables. -/
theorem C5_format_table_bc1_divergence :
    vkFormatToWebGPUTranscoder 131 = some ⟨.bc1RgbaUnorm, 4, 4, 16⟩ ∧
    vkFormatToWebGPUTranscoder 132 = some ⟨.bc1RgbaUnormSrgb, 4, 4, 16⟩ ∧
    vkFormatToWebGPUTranscoder 139 = some ⟨.bc4RUnorm, 4, 4, 16⟩ ∧
    vkFormatToWebGPUTranscoder 140 = some ⟨.bc4RSnorm, 4, 4, 16⟩ ∧
    vkFormatToWebGPU 131 = some ⟨.bc1RgbaUnorm, 4, 4, 8⟩ ∧
    vkFormatToWebGPU 132 = some ⟨.bc1RgbaUnormSrgb, 4, 4, 8⟩ ∧
    vkFormatToWebGPU 139 = some ⟨.bc4RUnorm, 4, 4, 8⟩ ∧
    vkFormatToWebGPU 140 = some ⟨.bc4RSnorm, 4, 4, 8⟩ ∧
    vkFormatToWebGPU 145 = some ⟨.bc7RgbaUnorm, 4, 4, 16⟩ ∧
    vkFormatToWebGPUTranscoder 145 = some ⟨.bc7RgbaUnorm, 4, 4, 16⟩ ∧
    vkFormatToWebGPU 130 = none ∧ vkFormatToWebGPU 133 = none ∧
    vkFormatToWebGPU 134 = none ∧ vkFormatToWebGPU 147 = none ∧
    vkFormatToWebGPU 0 = none ∧
    vkFormatToWebGPUTranscoder 130 = none ∧ vkFormatToWebGPUTranscoder 133 = none ∧
    vkFormatToWebGPUTranscoder 134 = none ∧ vkFormatToWebGPUTranscoder 147 = none ∧
    vkFormatToWebGPUTranscoder 0 = none := by
  decide

/-- C6: altering any single byte of the 12-byte magic makes `parseKTX2` fail
with the invalid-identifier error; and a well-formed serialized container
whose supercompression scheme field is anything other than 0 (None),
1 (BasisLZ) or 2 (Zstd) — in particular 3 (Zlib) — fails with an error of
the spec's `UnsupportedScheme` class. -/
theorem C6_rejection (z : List Nat → Option (List Nat)) :
    (∀ buf : List Nat, 12 ≤ buf.length →
      (∃ i, i < 12 ∧ buf.getD i 0 ≠ KTX2_IDENTIFIER.getD i 0) →
      parseKTX2 z buf = .error .invalidIdentifier) ∧
    (∀ (h : KTXHeader) (ix : KTXIndex) (lvls : List LevelTriple) (payload : List Nat),
      Header32 h → Index32 ix → (∀ t ∈ lvls, Triple64 t) →
      lvls.length = max 1 h.levelCount →
      ix.dfdByteLength = 0 → ix.kvdByteLength = 0 →
      h.supercompressionScheme ≠ 0 → h.supercompressionScheme ≠ 1 →
      h.supercompressionScheme ≠ 2 →
      ∃ e, parseKTX2 z (buildKTX2 h ix lvls payload) = .error e ∧
        e.isUnsupportedScheme = true) := by
  constructor
  · intro buf hlen ⟨i, hi, hne⟩
    have hmag : buf.take 12 ≠ KTX2_IDENTIFIER := by
      intro heq
      apply hne
      have h1 : (buf.take 12).getD i 0 = buf.getD i 0 := by
        simp [List.getD_eq_getElem?_getD, List.getElem?_take, hi]
      rw [← h1, heq]
    unfold parseKTX2 parseKTX2Core
    rw [if_neg (by omega), if_pos hmag]
    rfl
  · intro h ix lvls payload hH hI hT hlen hdfd hkvd hs0 hs1 hs2
    have hcore := parseKTX2Core_build z h ix lvls payload hH hI hT hlen hdfd hkvd
    unfold parseKTX2
    rw [hcore]
    unfold schemeDispatch
    rw [if_neg hs2, if_neg hs1]
    by_cases hs3 : h.supercompressionScheme = 3
    · rw [if_pos hs3]
      exact ⟨.unsupportedZlib, rfl, rfl⟩
    · rw [if_neg hs3, if_pos hs0]
      exact ⟨.unknownScheme h.supercompressionScheme, rfl, rfl⟩

/-- Witness for C6: the magic with its first byte zeroed is rejected as an
invalid identifier, and a concrete Zlib-scheme (3) container fails with an
`UnsupportedScheme`-class error. -/
theorem C6_rejection_witness :
    parseKTX2 (fun _ => none) (KTX2_IDENTIFIER.set 0 0 ++ List.replicate 92 0) =
      .error .invalidIdentifier ∧
    ∃ e, parseKTX2 (fun _ => none)
        (buildKTX2 ⟨145, 1, 4, 4, 0, 0, 1, 1, 3⟩ ⟨0, 0, 0, 0, 0, 0⟩ [⟨0, 0, 0⟩] []) =
        .error e ∧ e.isUnsupportedScheme = true :=
  ⟨(C6_rejection (fun _ => none)).1 (KTX2_IDENTIFIER.set 0 0 ++ List.replicate 92 0)
      (by decide) ⟨0, by decide, by decide⟩,
   (C6_rejection (fun _ => none)).2 ⟨145, 1, 4, 4, 0, 0, 1, 1, 3⟩ ⟨0, 0, 0, 0, 0, 0⟩
      [⟨0, 0, 0⟩] [] (by decide) (by decide) (by decide) (by decide) (by decide)
      (by decide) (by decide) (by decide) (by decide)⟩

/-- C10: a buffer shorter than 12 bytes makes `parseKTX2` fail with the
RangeError raised while constructing the 12-byte identifier view — not with
the invalid-identifier error and not with the truncation error — because the
identifier bytes are read and compared before the buffer-length check; and
the truncation error can only ever be produced for a buffer whose first 12
bytes equal the magic. -/
theorem C10_short_buffer_range_error (z : List Nat → Option (List Nat)) (buf : List Nat)
    (hshort : buf.length < 12) :
    parseKTX2 z buf = .error .rangeError ∧
    parseKTX2 z buf ≠ .error .invalidIdentifier ∧
    parseKTX2 z buf ≠ .error .truncatedHeader ∧
    (∀ buf' : List Nat, parseKTX2 z buf' = .error .truncatedHeader →
      buf'.take 12 = KTX2_IDENTIFIER) := by
  have hre : parseKTX2 z buf = .error .rangeError := by
    unfold parseKTX2 parseKTX2Core
    rw [if_pos hshort]
    rfl
  refine ⟨hre, by rw [hre]; simp, by rw [hre]; simp, ?_⟩
  intro buf' htr
  unfold parseKTX2 parseKTX2Core at htr
  by_cases h12 : buf'.length < 12
  · rw [if_pos h12] at htr
    simp [Except.map] at htr
  rw [if_neg h12] at htr
  by_cases hmag : buf'.take 12 ≠ KTX2_IDENTIFIER
  · rw [if_pos hmag] at htr
    simp [Except.map] at htr
  · exact not_not.mp hmag

/-- Witness for C10: the 3-byte buffer `[0, 1, 2]` gives the out-of-bounds
construction error. -/
theorem C10_short_buffer_range_error_witness :
    parseKTX2 (fun _ => none) [0, 1, 2] = .error .rangeError ∧
    parseKTX2 (fun _ => none) [0, 1, 2] ≠ .error .invalidIdentifier ∧
    parseKTX2 (fun _ => none) [0, 1, 2] ≠ .error .truncatedHeader ∧
    (∀ buf' : List Nat, parseKTX2 (fun _ => none) buf' = .error .truncatedHeader →
      buf'.take 12 = KTX2_IDENTIFIER) :=
  C10_short_buffer_range_error (fun _ => none) [0, 1, 2] (by decide)

end KTX2

namespace KTX2

/-- Default level triple used with `List.getD`. -/
def dummyTriple : LevelTriple := ⟨0, 0, 0⟩

lemma mkLevels_length (pw ph : Nat) :
    ∀ (lvls : List LevelTriple) (i : Nat), (mkLevels pw ph i lvls).length = lvls.length := by
  intro lvls
  induction lvls with
  | nil => intro i; rfl
  | cons t rest ih => intro i; simp [mkLevels, ih (i + 1)]

lemma mkLevels_mem (pw ph : Nat) :
    ∀ (lvls : List LevelTriple) (i : Nat) (l : KTXLevel), l ∈ mkLevels pw ph i lvls →
      ∃ t ∈ lvls, l.byteOffset = roundToDouble t.byteOffset ∧
        l.byteLength = roundToDouble t.byteLength ∧
        l.uncompressedByteLength = roundToDouble t.uncompressedByteLength := by
  intro lvls
  induction lvls with
  | nil => intro i l hl; simp [mkLevels] at hl
  | cons t rest ih =>
    intro i l hl
    rw [mkLevels] at hl
    rcases List.mem_cons.mp hl with heq | hmem
    · exact ⟨t, List.mem_cons_self t rest, by rw [heq], by rw [heq], by rw [heq]⟩
    · obtain ⟨t', ht', he⟩ := ih (i + 1) l hmem
      exact ⟨t', List.mem_cons_of_mem _ ht', he⟩

lemma mkLevels_getD_fields (pw ph : Nat) :
    ∀ (lvls : List LevelTriple) (i j : Nat), j < lvls.length →
      ((mkLevels pw ph i lvls).getD j dummyLevel).byteOffset =
        roundToDouble ((lvls.getD j dummyTriple).byteOffset) ∧
      ((mkLevels pw ph i lvls).getD j dummyLevel).byteLength =
        roundToDouble ((lvls.getD j dummyTriple).byteLength) ∧
      ((mkLevels pw ph i lvls).getD j dummyLevel).uncompressedByteLength =
        roundToDouble ((lvls.getD j dummyTriple).uncompressedByteLength) := by
  intro lvls
  induction lvls with
  | nil => intro i j hj; simp at hj
  | cons t rest ih =>
    intro i j hj
    cases j with
    | zero => simp [mkLevels, List.getD]
    | succ k =>
      have := ih (i + 1) k (by simpa using Nat.lt_of_succ_lt_succ hj)
      simpa [mkLevels, List.getD] using this

lemma zstdLevels_spec (z : List Nat → Option (List Nat)) (buf : List Nat)
    (hz : ∀ s, (z s).isSome) :
    ∀ (ls : List KTXLevel) (i : Nat),
      (∀ l ∈ ls, l.byteOffset + l.byteLength ≤ buf.length) →
      ∃ ls' ws, zstdLevels z buf i ls = .ok (ls', ws) ∧ ls'.length = ls.length ∧
        ∀ j, j < ls.length →
          (ls'.getD j dummyLevel).isDecompressed = true ∧
          (ls'.getD j dummyLevel).decompressedData =
            z ((buf.drop (ls.getD j dummyLevel).byteOffset).take
                (ls.getD j dummyLevel).byteLength) ∧
          (∀ d, z ((buf.drop (ls.getD j dummyLevel).byteOffset).take
                (ls.getD j dummyLevel).byteLength) = some d →
            d.length ≠ (ls.getD j dummyLevel).uncompressedByteLength →
            ZstdWarning.sizeMismatch (i + j) d.length
              (ls.getD j dummyLevel).uncompressedByteLength ∈ ws) := by
  intro ls
  induction ls with
  | nil =>
    intro i _
    exact ⟨[], [], rfl, rfl, fun j hj => absurd hj (by simp)⟩
  | cons l rest ih =>
    intro i hbound
    obtain ⟨d, hd⟩ := Option.isSome_iff_exists.mp
      (hz ((buf.drop l.byteOffset).take l.byteLength))
    obtain ⟨ls2, ws2, hok2, hlen2, hspec2⟩ :=
      ih (i + 1) (fun l' hl' => hbound l' (List.mem_cons_of_mem _ hl'))
    refine ⟨{ l with isDecompressed := true, decompressedData := some d } :: ls2,
      (if d.length ≠ l.uncompressedByteLength then
        [ZstdWarning.sizeMismatch i d.length l.uncompressedByteLength] else []) ++ ws2,
      ?_, by simp [hlen2], ?_⟩
    · rw [zstdLevels,
        if_pos (hbound l (List.mem_cons_self l rest)), hd, hok2]
    · intro j hj
      cases j with
      | zero =>
        refine ⟨rfl, by simp [List.getD, hd], ?_⟩
        intro d' hd' hne
        simp only [List.getD_cons_zero] at hd' hne
        rw [hd] at hd'
        cases hd'
        simp [hne]
      | succ k =>
        have hk := hspec2 k (by simpa using Nat.lt_of_succ_lt_succ hj)
        refine ⟨by simpa [List.getD] using hk.1, by simpa [List.getD] using hk.2.1, ?_⟩
        intro d' hd' hne
        have harith : i + (k + 1) = i + 1 + k := by omega
        rw [harith]
        refine List.mem_append_right _ ?_
        exact hk.2.2 d' (by simpa [List.getD] using hd') (by simpa [List.getD] using hne)

end KTX2

namespace KTX2

lemma getD_mem_of_lt {α : Type} (l : List α) (j : Nat) (d : α) (h : j < l.length) :
    l.getD j d ∈ l := by
  rw [List.getD_eq_getElem?_getD, List.getElem?_eq_getElem h]
  exact List.getElem_mem h

/-- C7: under the Zstd scheme, when the external decompressor returns for a
level a buffer whose length differs from that level's declared
`uncompressedByteLength`, the parse does not fail: the decompressed buffer is
still attached as the level's payload, a `console.warn` record is emitted for
exactly the mismatching levels, and every remaining level is still processed
(the parse returns `ok` with all levels decompressed). -/
theorem C7_zstd_size_mismatch_nonfatal (z : List Nat → Option (List Nat))
    (h : KTXHeader) (ix : KTXIndex) (lvls : List LevelTriple) (payload : List Nat)
    (hz : ∀ s, (z s).isSome)
    (hH : Header32 h) (hI : Index32 ix) (hT : ∀ t ∈ lvls, Triple53 t)
    (hlen : lvls.length = max 1 h.levelCount)
    (hsch : h.supercompressionScheme = 2)
    (hdfd : ix.dfdByteLength = 0) (hkvd : ix.kvdByteLength = 0)
    (hbound : ∀ t ∈ lvls,
      t.byteOffset + t.byteLength ≤ (buildKTX2 h ix lvls payload).length) :
    ∃ r ws, parseKTX2Core z (buildKTX2 h ix lvls payload) = .ok (r, ws) ∧
      r.levels.length = lvls.length ∧
      ∀ j, j < lvls.length →
        (r.levels.getD j dummyLevel).isDecompressed = true ∧
        (r.levels.getD j dummyLevel).decompressedData =
          z (((buildKTX2 h ix lvls payload).drop
              (lvls.getD j dummyTriple).byteOffset).take
              (lvls.getD j dummyTriple).byteLength) ∧
        (∀ d, z (((buildKTX2 h ix lvls payload).drop
              (lvls.getD j dummyTriple).byteOffset).take
              (lvls.getD j dummyTriple).byteLength) = some d →
          d.length ≠ (lvls.getD j dummyTriple).uncompressedByteLength →
          ZstdWarning.sizeMismatch j d.length
            (lvls.getD j dummyTriple).uncompressedByteLength ∈ ws) := by
  have hcore := parseKTX2Core_build z h ix lvls payload hH hI
    (fun t ht => (hT t ht).to64) hlen hdfd hkvd
  have hboundm : ∀ l ∈ mkLevels h.pixelWidth h.pixelHeight 0 lvls,
      l.byteOffset + l.byteLength ≤ (buildKTX2 h ix lvls payload).length := by
    intro l hl
    obtain ⟨t, ht, e1, e2, _⟩ := mkLevels_mem h.pixelWidth h.pixelHeight lvls 0 l hl
    obtain ⟨t1, t2, _⟩ := hT t ht
    rw [e1, e2, roundToDouble_of_lt _ t1, roundToDouble_of_lt _ t2]
    exact hbound t ht
  obtain ⟨ls', ws, hok, hlen', hspec⟩ :=
    zstdLevels_spec z (buildKTX2 h ix lvls payload) hz
      (mkLevels h.pixelWidth h.pixelHeight 0 lvls) 0 hboundm
  refine ⟨⟨h, mkIndex ix, ls', none, none⟩, ws, ?_, ?_, ?_⟩
  · rw [hcore]
    unfold schemeDispatch
    rw [if_pos hsch, hok]
  · simpa [mkLevels_length] using hlen'
  · intro j hj
    have hjm : j < (mkLevels h.pixelWidth h.pixelHeight 0 lvls).length := by
      rw [mkLevels_length]; exact hj
    obtain ⟨f1, f2, f3⟩ := mkLevels_getD_fields h.pixelWidth h.pixelHeight lvls 0 j hj
    obtain ⟨t1, t2, t3⟩ := hT _ (getD_mem_of_lt lvls j dummyTriple hj)
    have hs := hspec j hjm
    rw [f1, f2, f3, roundToDouble_of_lt _ t1, roundToDouble_of_lt _ t2,
      roundToDouble_of_lt _ t3] at hs
    simpa using hs

/-- Witness for C7: one level declaring `uncompressedByteLength = 99` while
the decompressor returns 8 bytes still parses; the doubled slice is attached
and the mismatch is only warned about. -/
theorem C7_zstd_size_mismatch_nonfatal_witness :
    ∃ r ws, parseKTX2Core (fun s => some (s ++ s))
        (buildKTX2 ⟨145, 1, 4, 4, 0, 0, 1, 1, 2⟩ ⟨0, 0, 0, 0, 0, 0⟩ [⟨104, 4, 99⟩]
          [9, 9, 9, 9]) = .ok (r, ws) ∧
      r.levels.length = ([⟨104, 4, 99⟩] : List LevelTriple).length ∧
      ∀ j, j < ([⟨104, 4, 99⟩] : List LevelTriple).length →
        (r.levels.getD j dummyLevel).isDecompressed = true ∧
        (r.levels.getD j dummyLevel).decompressedData =
          (fun s => some (s ++ s))
            (((buildKTX2 ⟨145, 1, 4, 4, 0, 0, 1, 1, 2⟩ ⟨0, 0, 0, 0, 0, 0⟩ [⟨104, 4, 99⟩]
                [9, 9, 9, 9]).drop
              (([⟨104, 4, 99⟩] : List LevelTriple).getD j dummyTriple).byteOffset).take
              (([⟨104, 4, 99⟩] : List LevelTriple).getD j dummyTriple).byteLength) ∧
        (∀ d, (fun s => some (s ++ s))
            (((buildKTX2 ⟨145, 1, 4, 4, 0, 0, 1, 1, 2⟩ ⟨0, 0, 0, 0, 0, 0⟩ [⟨104, 4, 99⟩]
                [9, 9, 9, 9]).drop
              (([⟨104, 4, 99⟩] : List LevelTriple).getD j dummyTriple).byteOffset).take
              (([⟨104, 4, 99⟩] : List LevelTriple).getD j dummyTriple).byteLength) = some d →
          d.length ≠ (([⟨104, 4, 99⟩] : List LevelTriple).getD j dummyTriple).uncompressedByteLength →
          ZstdWarning.sizeMismatch j d.length
            (([⟨104, 4, 99⟩] : List LevelTriple).getD j dummyTriple).uncompressedByteLength ∈ ws) :=
  C7_zstd_size_mismatch_nonfatal (fun s => some (s ++ s)) ⟨145, 1, 4, 4, 0, 0, 1, 1, 2⟩
    ⟨0, 0, 0, 0, 0, 0⟩ [⟨104, 4, 99⟩] [9, 9, 9, 9] (fun s => rfl) (by decide) (by decide)
    (by decide) (by decide) (by decide) (by decide) (by decide) (by decide)

end KTX2

namespace KTX2

/-- The supercompression dispatch tail of the extension.ts revision. -/
def schemeDispatchExt (z : List Nat → Option (List Nat)) (b : BasisOracle)
    (buf : List Nat) (h : KTXHeader) (ix : KTXIndex) (lvls0 : List KTXLevel)
    (dfd : Option DFD) (kvd : Option (List (List Nat × List Nat))) :
    Except KTXError (ParsedKTX2 × List ZstdWarning) :=
  if h.supercompressionScheme = 2 then
    match zstdLevels z buf 0 lvls0 with
    | .error e => .error e
    | .ok (lvls2, ws) => .ok (⟨h, ix, lvls2, dfd, kvd⟩, ws)
  else if h.supercompressionScheme = 1 then
    if b.startOk then
      .ok (⟨h, ix, basisAttach b 0 (min lvls0.length (b.getLevelsResult.getD 1)) lvls0,
            dfd, kvd⟩, [])
    else .error .transcoderInitFailed
  else if h.supercompressionScheme = 3 then .error .unsupportedZlib
  else if h.supercompressionScheme ≠ 0 then .error (.unknownScheme h.supercompressionScheme)
  else .ok (⟨h, ix, lvls0, dfd, kvd⟩, [])

lemma parseKTX2ExtCore_build (z : List Nat → Option (List Nat)) (b : BasisOracle)
    (h : KTXHeader) (ix : KTXIndex) (lvls : List LevelTriple) (payload : List Nat)
    (hH : Header32 h) (hI : Index32 ix) (hT : ∀ t ∈ lvls, Triple64 t)
    (hlen : lvls.length = max 1 h.levelCount)
    (hdfd : ix.dfdByteLength = 0) (hkvd : ix.kvdByteLength = 0) :
    parseKTX2ExtCore z b (buildKTX2 h ix lvls payload) =
      schemeDispatchExt z b (buildKTX2 h ix lvls payload) h (mkIndex ix)
        (mkLevels h.pixelWidth h.pixelHeight 0 lvls) none none := by
  have hlenB := buildKTX2_length h ix lvls payload
  have hlv : readLevelEntries (buildKTX2 h ix lvls payload) h.pixelWidth h.pixelHeight 0
      (max 1 h.levelCount) = some (mkLevels h.pixelWidth h.pixelHeight 0 lvls) := by
    rw [← hlen]
    have hshape : buildKTX2 h ix lvls payload =
        (KTX2_IDENTIFIER ++ headerBytes h ++ indexBytes ix) ++
          (lvls.flatMap levelEntryBytes ++ payload) := by
      simp [buildKTX2, List.append_assoc]
    rw [hshape]
    apply readLevelEntries_build h.pixelWidth h.pixelHeight lvls 0 _ payload _ hT
    simp [KTX2_IDENTIFIER, headerBytes, indexBytes, u32LE, u64LE]
  unfold parseKTX2ExtCore
  rw [if_neg (by omega), if_neg (by simp [buildKTX2_take12]), if_neg (by omega)]
  rw [readHeader_build h ix lvls payload hH, readIndex_build h ix lvls payload hI]
  simp only [hlv]
  simp [mkIndex, hdfd, hkvd, schemeDispatchExt]

/-- The levels the BasisLZ loop produces for a fully transcoded span starting
at loop counter `j`: each level gains the transcoder session's payload and
target format. -/
def attachSome (b : BasisOracle) : Nat → List KTXLevel → List KTXLevel
  | _, [] => []
  | j, l :: rest =>
      { l with isDecompressed := true, decompressedData := b.transcode j,
               transcodedFormat := some b.format } :: attachSome b (j + 1) rest

lemma attachSome_length (b : BasisOracle) :
    ∀ (ls : List KTXLevel) (j : Nat), (attachSome b j ls).length = ls.length := by
  intro ls
  induction ls with
  | nil => intro j; rfl
  | cons l rest ih => intro j; simp [attachSome, ih (j + 1)]

lemma basisAttach_decomp (b : BasisOracle) :
    ∀ (ls : List KTXLevel) (j safe k : Nat),
      j + k ≤ safe → k ≤ ls.length →
      (∀ m, m < k → (b.transcode (j + m)).isSome) →
      (j + k = safe ∨ b.transcode (j + k) = none) →
      basisAttach b j safe ls = attachSome b j (ls.take k) ++ ls.drop k := by
  intro ls
  induction ls with
  | nil =>
    intro j safe k _ hk2 _ _
    have : k = 0 := by simpa using hk2
    subst this
    simp [basisAttach, attachSome]
  | cons l rest ih =>
    intro j safe k hk1 hk2 hsucc hstop
    cases k with
    | zero =>
      simp only [List.take_zero, List.drop_zero, attachSome, List.nil_append]
      rw [basisAttach]
      by_cases hj : j < safe
      · have hnone : b.transcode j = none := by
          rcases hstop with hl | hr
          · omega
          · simpa using hr
        rw [if_pos hj, hnone]
      · rw [if_neg hj]
    | succ k' =>
      have hj : j < safe := by omega
      obtain ⟨d, hd⟩ := Option.isSome_iff_exists.mp
        (by simpa using hsucc 0 (by omega))
      rw [basisAttach, if_pos hj, hd]
      have hIH := ih (j + 1) safe k' (by omega) (by simpa using hk2)
        (fun m hm => by
          have := hsucc (m + 1) (by omega)
          simpa [Nat.add_assoc, Nat.add_comm 1 m] using this)
        (by

          rcases hstop with hl | hr
          · left; omega
          · right
            have harith : j + 1 + k' = j + (k' + 1) := by omega
            rw [harith]
            exact hr)
      simp only [List.take_succ_cons, List.drop_succ_cons, attachSome, List.cons_append]
      rw [hIH, hd]

lemma countResolved_append (l1 l2 : List KTXLevel) :
    countResolved (l1 ++ l2) = countResolved l1 + countResolved l2 := by
  simp [countResolved, List.filter_append]

lemma countResolved_attachSome (b : BasisOracle) :
    ∀ (ls : List KTXLevel) (j : Nat), countResolved (attachSome b j ls) = ls.length := by
  intro ls
  induction ls with
  | nil => intro j; rfl
  | cons l rest ih =>
    intro j
    have hr := ih (j + 1)
    simp [attachSome, countResolved, List.filter_cons] at hr ⊢
    exact hr

lemma countResolved_fresh :
    ∀ ls : List KTXLevel, (∀ l ∈ ls, l.isDecompressed = false) → countResolved ls = 0 := by
  intro ls
  induction ls with
  | nil => intro _; rfl
  | cons l rest ih =>
    intro hf
    have hl := hf l (List.mem_cons_self l rest)
    have hr := ih (fun l' hl' => hf l' (List.mem_cons_of_mem _ hl'))
    simp [countResolved, List.filter_cons, hl] at hr ⊢
    exact hr

lemma mkLevels_fresh (pw ph : Nat) :
    ∀ (lvls : List LevelTriple) (i : Nat) (l : KTXLevel),
      l ∈ mkLevels pw ph i lvls → l.isDecompressed = false := by
  intro lvls
  induction lvls with
  | nil => intro i l hl; simp [mkLevels] at hl
  | cons t rest ih =>
    intro i l hl
    rw [mkLevels] at hl
    rcases List.mem_cons.mp hl with heq | hmem
    · rw [heq]
    · exact ih (i + 1) l hmem

end KTX2

namespace KTX2

/-- C8: under the BasisLZ scheme (extension.ts revision), with a started
transcoder session reporting `t` levels, the per-level loop runs over
`min(declared level count, t)` levels — a count mismatch never makes the
parse fail — and if the first transcode failure happens at level `k`, the
parse still returns `ok`, levels `0..k-1` keep their transcoded payloads
(`attachSome` over the prefix) and all deeper levels are left untouched
(the unchanged suffix), so exactly `k` levels are resolved; when every level
transcodes, `k = min(declared, t)` levels are resolved. -/
theorem C8_basis_partial_resolution (z : List Nat → Option (List Nat)) (b : BasisOracle)
    (h : KTXHeader) (ix : KTXIndex) (lvls : List LevelTriple) (payload : List Nat)
    (hH : Header32 h) (hI : Index32 ix) (hT : ∀ t' ∈ lvls, Triple64 t')
    (hlen : lvls.length = max 1 h.levelCount)
    (hdfd : ix.dfdByteLength = 0) (hkvd : ix.kvdByteLength = 0)
    (hsch : h.supercompressionScheme = 1)
    (hstart : b.startOk = true)
    (t k : Nat) (hg : b.getLevelsResult = some t)
    (hk : k ≤ min lvls.length t)
    (hsucc : ∀ m, m < k → (b.transcode m).isSome)
    (hstop : k = min lvls.length t ∨ b.transcode k = none) :
    ∃ r, parseKTX2Ext z b (buildKTX2 h ix lvls payload) = .ok r ∧
      r.levels.length = lvls.length ∧
      countResolved r.levels = k ∧
      r.levels =
        attachSome b 0 ((mkLevels h.pixelWidth h.pixelHeight 0 lvls).take k) ++
          (mkLevels h.pixelWidth h.pixelHeight 0 lvls).drop k := by
  have hcore := parseKTX2ExtCore_build z b h ix lvls payload hH hI hT hlen hdfd hkvd
  have hmlen : (mkLevels h.pixelWidth h.pixelHeight 0 lvls).length = lvls.length :=
    mkLevels_length _ _ _ _
  have hkl : k ≤ lvls.length := le_trans hk (min_le_left _ _)
  have hsafe : min (mkLevels h.pixelWidth h.pixelHeight 0 lvls).length
      (b.getLevelsResult.getD 1) = min lvls.length t := by
    rw [hg, hmlen]
    rfl
  have hdec := basisAttach_decomp b (mkLevels h.pixelWidth h.pixelHeight 0 lvls) 0
    (min lvls.length t) k (by omega) (by rw [hmlen]; exact hkl)
    (fun m hm => by simpa using hsucc m hm)
    (by
      rcases hstop with hl | hr
      · left; omega
      · right; simpa using hr)
  refine ⟨⟨h, mkIndex ix,
    attachSome b 0 ((mkLevels h.pixelWidth h.pixelHeight 0 lvls).take k) ++
      (mkLevels h.pixelWidth h.pixelHeight 0 lvls).drop k, none, none⟩, ?_, ?_, ?_, ?_⟩
  · unfold parseKTX2Ext
    rw [hcore]
    unfold schemeDispatchExt
    rw [if_neg (by omega), if_pos hsch, hstart, if_pos rfl, hsafe, hdec]
    rfl
  · simp only [List.length_append, attachSome_length, List.length_take, List.length_drop,
      hmlen]
    omega
  · rw [countResolved_append, countResolved_attachSome,
      countResolved_fresh ((mkLevels h.pixelWidth h.pixelHeight 0 lvls).drop k)
        (fun l hl => mkLevels_fresh h.pixelWidth h.pixelHeight lvls 0 l
          (List.drop_subset _ _ hl))]
    simp only [List.length_take, hmlen]
    omega
  · rfl

/-- The concrete transcoder session of the C8 witness: reports 2 levels,
transcodes level 0 and fails on level 1. -/
def c8Oracle : BasisOracle :=
  ⟨true, some 2, 6, fun i => if i = 0 then some [1, 2] else none⟩

/-- Witness for C8: a 2-level BasisLZ container whose transcoder fails at
level 1 still parses, with exactly level 0 resolved and level 1 untouched. -/
theorem C8_basis_partial_resolution_witness :
    ∃ r, parseKTX2Ext (fun _ => none) c8Oracle
        (buildKTX2 ⟨0, 1, 4, 4, 0, 0, 1, 2, 1⟩ ⟨0, 0, 0, 0, 0, 0⟩
          [⟨0, 0, 0⟩, ⟨0, 0, 0⟩] []) = .ok r ∧
      r.levels.length = ([⟨0, 0, 0⟩, ⟨0, 0, 0⟩] : List LevelTriple).length ∧
      countResolved r.levels = 1 ∧
      r.levels =
        attachSome c8Oracle 0 ((mkLevels 4 4 0 [⟨0, 0, 0⟩, ⟨0, 0, 0⟩]).take 1) ++
          (mkLevels 4 4 0 [⟨0, 0, 0⟩, ⟨0, 0, 0⟩]).drop 1 :=
  C8_basis_partial_resolution (fun _ => none) c8Oracle ⟨0, 1, 4, 4, 0, 0, 1, 2, 1⟩
    ⟨0, 0, 0, 0, 0, 0⟩ [⟨0, 0, 0⟩, ⟨0, 0, 0⟩] [] (by decide) (by decide) (by decide)
    (by decide) (by decide) (by decide) (by decide) (by decide) 2 1 (by rfl) (by decide)
    (fun m hm => by have h0 : m = 0 := Nat.lt_one_iff.mp hm; subst h0; rfl)
    (Or.inr (by rfl))

end KTX2

namespace KTX2

/-- A concrete container whose supercompression-global-data index range
(offset 1048576, length 1048576) lies far beyond the 104-byte file. -/
def c9Buf : List Nat :=
  buildKTX2 ⟨145, 1, 4, 4, 0, 0, 1, 1, 0⟩ ⟨0, 0, 0, 0, 1048576, 1048576⟩ [⟨0, 0, 0⟩] []

/-- The value `parseKTX2` returns for `c9Buf`. -/
def c9Result : ParsedKTX2 :=
  ⟨⟨145, 1, 4, 4, 0, 0, 1, 1, 0⟩, ⟨0, 0, 0, 0, 1048576, 1048576⟩,
   [⟨0, 0, 0, 4, 4, false, none, none⟩], none, none⟩

set_option maxRecDepth 4000 in
/-- Counterexample to C9: `parseKTX2` accepts a container whose SGD
offset+length pair extends far past the end of the buffer — no
`TruncatedIndex` error exists and no index bounds are validated. -/
theorem C9_counterexample_sgd_unchecked :
    parseKTX2 (fun _ => none) c9Buf = .ok c9Result ∧
    c9Buf.length < c9Result.index.sgdByteOffset + c9Result.index.sgdByteLength :=
  ⟨by rfl, by decide⟩

/-- C9 (amended): `parseKTX2` performs no bounds validation of the index
block.  The SGD offset/length pair is decoded but never compared against the
file length, so a container whose SGD range extends past the end of the
buffer still parses successfully; and a DFD block with nonzero length whose
range extends past the end of the buffer makes the parse fail with the
unclassified out-of-bounds view-construction error (`rangeError`), not with
a dedicated truncation error. -/
theorem C9_amended_no_index_bounds_check (z : List Nat → Option (List Nat)) :
    (∀ (h : KTXHeader) (ix : KTXIndex) (lvls : List LevelTriple) (payload : List Nat),
      Header32 h → Index32 ix → (∀ t ∈ lvls, Triple64 t) →
      lvls.length = max 1 h.levelCount →
      ix.dfdByteLength = 0 → ix.kvdByteLength = 0 →
      h.supercompressionScheme = 0 →
      ∃ r, parseKTX2 z (buildKTX2 h ix lvls payload) = .ok r ∧
        r.index.sgdByteOffset = roundToDouble ix.sgdByteOffset ∧
        r.index.sgdByteLength = roundToDouble ix.sgdByteLength) ∧
    (∀ (h : KTXHeader) (ix : KTXIndex) (lvls : List LevelTriple) (payload : List Nat),
      Header32 h → Index32 ix → (∀ t ∈ lvls, Triple64 t) →
      lvls.length = max 1 h.levelCount →
      0 < ix.dfdByteLength →
      (buildKTX2 h ix lvls payload).length < ix.dfdByteOffset + ix.dfdByteLength →
      parseKTX2 z (buildKTX2 h ix lvls payload) = .error .rangeError) := by
  constructor
  · intro h ix lvls payload hH hI hT hlen hdfd hkvd hsch
    refine ⟨⟨h, mkIndex ix, mkLevels h.pixelWidth h.pixelHeight 0 lvls, none, none⟩, ?_, rfl, rfl⟩
    unfold parseKTX2
    rw [parseKTX2Core_build z h ix lvls payload hH hI hT hlen hdfd hkvd]
    simp [schemeDispatch, hsch, Except.map]
  · intro h ix lvls payload hH hI hT hlen hdfdpos hoob
    have hlenB := buildKTX2_length h ix lvls payload
    have hlv : readLevelEntries (buildKTX2 h ix lvls payload) h.pixelWidth h.pixelHeight 0
        (max 1 h.levelCount) = some (mkLevels h.pixelWidth h.pixelHeight 0 lvls) := by
      rw [← hlen]
      have hshape : buildKTX2 h ix lvls payload =
          (KTX2_IDENTIFIER ++ headerBytes h ++ indexBytes ix) ++
            (lvls.flatMap levelEntryBytes ++ payload) := by
        simp [buildKTX2, List.append_assoc]
      rw [hshape]
      apply readLevelEntries_build h.pixelWidth h.pixelHeight lvls 0 _ payload _ hT
      simp [KTX2_IDENTIFIER, headerBytes, indexBytes, u32LE, u64LE]
    have hnone : parseDFD (buildKTX2 h ix lvls payload) ix.dfdByteOffset ix.dfdByteLength =
        none := by
      unfold parseDFD
      rw [if_neg]
      rintro ⟨ha, _⟩
      omega
    unfold parseKTX2 parseKTX2Core
    rw [if_neg (by omega), if_neg (by simp [buildKTX2_take12]), if_neg (by omega)]
    rw [readHeader_build h ix lvls payload hH, readIndex_build h ix lvls payload hI]
    simp only [hlv]
    simp [mkIndex, hdfdpos, hnone, Except.map]

set_option maxRecDepth 4000 in
/-- Witness for the amended C9: the out-of-bounds-SGD container of the
counterexample parses with the oversized SGD values preserved, while a
container whose DFD block (offset 200, length 50) overruns the 104-byte file
fails with the unclassified range error. -/
theorem C9_amended_no_index_bounds_check_witness :
    (∃ r, parseKTX2 (fun _ => none)
        (buildKTX2 ⟨145, 1, 4, 4, 0, 0, 1, 1, 0⟩ ⟨0, 0, 0, 0, 1048576, 1048576⟩
          [⟨0, 0, 0⟩] []) = .ok r ∧
      r.index.sgdByteOffset = roundToDouble 1048576 ∧
      r.index.sgdByteLength = roundToDouble 1048576) ∧
    parseKTX2 (fun _ => none)
        (buildKTX2 ⟨145, 1, 4, 4, 0, 0, 1, 1, 0⟩ ⟨200, 50, 0, 0, 0, 0⟩ [⟨0, 0, 0⟩] []) =
      .error .rangeError :=
  ⟨(C9_amended_no_index_bounds_check (fun _ => none)).1 ⟨145, 1, 4, 4, 0, 0, 1, 1, 0⟩
      ⟨0, 0, 0, 0, 1048576, 1048576⟩ [⟨0, 0, 0⟩] [] (by decide) (by decide) (by decide)
      (by decide) (by decide) (by decide) (by decide),
   (C9_amended_no_index_bounds_check (fun _ => none)).2 ⟨145, 1, 4, 4, 0, 0, 1, 1, 0⟩
      ⟨200, 50, 0, 0, 0, 0⟩ [⟨0, 0, 0⟩] [] (by decide) (by decide) (by decide)
      (by decide) (by decide) (by decide)⟩

end KTX2
